import Mathlib

/-!
# Verification of the blackscript text-editor core (`src/widgets/textarea.rs`)

This file gives a shallow embedding of the buffer + cursor + wrap-layout engine
of the `canvas_textarea` widget and proves/refutes the frozen claims about it.

Modelling conventions:
* Rust `Vec<T>` is `List T`; `usize` is `Nat` (no editor quantity approaches
  2^64, and the source never relies on wrap-around).
* `f32` quantities (pixel positions, scroll offset, font sizes) are modelled by
  `ℚ`; the source only adds/subtracts/divides small exactly-representable
  values on the paths the claims talk about.
* `iced::Font` is modelled by an opaque name; `Font::default()` is distinct
  from `Font::with_name("Courier New")` as in the source.
* Rust loops are translated either structurally or with an explicit fuel that
  dominates the source loop's iteration count, so every definition is
  executable by `decide`/`rfl`.
* Out-of-range panics of `Vec` indexing / `drain` have no direct counterpart:
  the list operations are total.  All call sites are exercised only at
  panic-free arguments (this is part of what the invariant proofs show).
* Rust `char::is_whitespace` (Unicode White_Space) is modelled by Lean's
  `Char.isWhitespace` (space, tab, CR, LF) — the two agree on all ASCII
  input, and no claim depends on exotic Unicode whitespace.
-/

set_option autoImplicit false

namespace Blackscript

/-- Model of `iced::Font`: only its identity matters to the editor core. -/
structure Font where
  name : String
deriving DecidableEq, Repr

/-- `Font::default()` — distinct from the state's `default_font`. -/
def Font.default : Font := ⟨""⟩

/-- Model of `Vec::insert(pos, a)`.  (Rust panics for `pos > len`; this total
model appends in that case, a situation the editor never reaches.) -/
def listInsertAt {α : Type} (l : List α) (pos : Nat) (a : α) : List α :=
  l.take pos ++ a :: l.drop pos

/-- Model of `Vec::remove(pos)` (the element drop; callers of `remove_char`
in the source discard the returned character). -/
def listRemoveAt {α : Type} (l : List α) (pos : Nat) : List α :=
  l.take pos ++ l.drop (pos + 1)

/-- `struct Line { content, fonts, font_sizes }` from the source. -/
structure Line where
  content : List Char
  fonts : List Font
  font_sizes : List ℚ
deriving DecidableEq, Repr

/-- `Line::new()`. -/
def Line.new : Line := ⟨[], [], []⟩

instance : Inhabited Line := ⟨Line.new⟩

/-- `Line::ensure_styles_match`: resize `fonts` (default `Font::default()`)
and `font_sizes` (default `12.0`) to the content length. -/
def Line.ensure_styles_match (l : Line) : Line :=
  let n := l.content.length
  let fonts :=
    if l.fonts.length < n then l.fonts ++ List.replicate (n - l.fonts.length) Font.default
    else if n < l.fonts.length then l.fonts.take n
    else l.fonts
  let font_sizes :=
    if l.font_sizes.length < n then l.font_sizes ++ List.replicate (n - l.font_sizes.length) (12 : ℚ)
    else if n < l.font_sizes.length then l.font_sizes.take n
    else l.font_sizes
  { content := l.content, fonts := fonts, font_sizes := font_sizes }

/-- `Line::insert_char(pos, c, font, font_size)`. -/
def Line.insert_char (l : Line) (pos : Nat) (c : Char) (f : Font) (sz : ℚ) : Line :=
  { content := listInsertAt l.content pos c
    fonts := listInsertAt l.fonts pos f
    font_sizes := listInsertAt l.font_sizes pos sz }

/-- `Line::remove_char(pos)` (state part; the returned `Option<char>` is
discarded by every caller in the source). -/
def Line.remove_char (l : Line) (pos : Nat) : Line :=
  if pos < l.content.length then
    { content := listRemoveAt l.content pos
      fonts := if pos < l.fonts.length then listRemoveAt l.fonts pos else l.fonts
      font_sizes := if pos < l.font_sizes.length then listRemoveAt l.font_sizes pos else l.font_sizes }
  else l

/-- `Line::drain_chars(start..stop)`: returns the removed characters and the
new line.  The style vectors are drained only when the range is nonempty and
starts inside them, with the end clamped — exactly as in the source. -/
def Line.drain_chars (l : Line) (start stop : Nat) : List Char × Line :=
  let chars := (l.content.drop start).take (stop - start)
  let content := l.content.take start ++ l.content.drop stop
  let fonts :=
    if start < stop ∧ start < l.fonts.length then
      l.fonts.take start ++ l.fonts.drop (min stop l.fonts.length)
    else l.fonts
  let font_sizes :=
    if start < stop ∧ start < l.font_sizes.length then
      l.font_sizes.take start ++ l.font_sizes.drop (min stop l.font_sizes.length)
    else l.font_sizes
  (chars, { content := content, fonts := fonts, font_sizes := font_sizes })

/-- `Line::append(&other)`. -/
def Line.append (l other : Line) : Line :=
  { content := l.content ++ other.content
    fonts := l.fonts ++ other.fonts
    font_sizes := l.font_sizes ++ other.font_sizes }

/-- The insertion loop of `handle_text_input`: insert the characters of
`text` at consecutive offsets starting at `pos`, all with the same style. -/
def Line.insert_text (l : Line) (pos : Nat) (text : List Char) (f : Font) (sz : ℚ) : Line :=
  match text with
  | [] => l
  | c :: rest => (l.insert_char pos c f sz).insert_text (pos + 1) rest f sz

/-- `struct TextEditorStateInner` (the `RefCell` wrapper and the transient
`last_click_position` are host plumbing; a mouse click is parametrised by the
stored click position directly). -/
structure TextEditorStateInner where
  lines : List Line
  cursor_hpos : Nat
  cursor_vpos : Nat
  cursor_visible : Bool
  default_font : Font
  default_font_size : ℚ
  char_width : ℚ
  line_height : ℚ
  scroll_offset_y : ℚ
  viewport_height : ℚ
  viewport_width : ℚ
  cached_word_count : Nat
  cached_char_count : Nat
  max_chars_per_visual_line : Nat
deriving DecidableEq, Repr

abbrev State := TextEditorStateInner

/-- `TextEditorState::default()`. -/
def initial_state : State :=
  { lines := [Line.new]
    cursor_hpos := 0
    cursor_vpos := 0
    cursor_visible := true
    default_font := ⟨"Courier New"⟩
    default_font_size := 16
    char_width := 9.6
    line_height := 20
    scroll_offset_y := 0
    viewport_height := 0
    viewport_width := 0
    cached_word_count := 0
    cached_char_count := 0
    max_chars_per_visual_line := 120 }

/-- `self.lines[i]` (total model; the source panics out of range). -/
def getLine (s : State) (i : Nat) : Line := s.lines.getD i Line.new

/-- Replace line `i` (models writing through `self.lines[i]`). -/
def setLine (s : State) (i : Nat) (l : Line) : State :=
  { s with lines := s.lines.set i l }

/-! ## Wrap layout engine -/

/-- The backward scan `for i in (start..e).rev() { if ws { return i + 1 } }`
of `find_wrap_position`. -/
def scan_back_ws (content : List Char) (start : Nat) : Nat → Option Nat
  | 0 => none
  | e + 1 =>
    if start ≤ e then
      if (content.getD e ' ').isWhitespace then some (e + 1)
      else scan_back_ws content start e
    else none

/-- `find_wrap_position(line, start, max_chars)` from the source. -/
def find_wrap_position (line : Line) (start max_chars : Nat) : Nat :=
  let content := line.content
  let e := min (start + max_chars) content.length
  if start ≥ e ∨ e = content.length then e
  else
    match scan_back_ws content start e with
    | some r => r
    | none => e

/-- The `while pos < content_len` loop of `calculate_visual_lines`, counting
chunks from `pos`.  `fuel` dominates the iteration count: with
`max_chars ≥ 1` each step advances `pos` by at least one, so
`fuel = content.length` is always enough (with `max_chars = 0` the source
loops forever; the engine maintains `max_chars ≥ 1`). -/
def cvl_aux (line : Line) (max_chars : Nat) : Nat → Nat → Nat
  | 0, _ => 0
  | fuel + 1, pos =>
    if pos < line.content.length then
      1 + cvl_aux line max_chars fuel (find_wrap_position line pos max_chars)
    else 0

/-- `calculate_visual_lines(line)` (the `self` argument only supplies
`max_chars_per_visual_line`). -/
def calculate_visual_lines (max_chars : Nat) (line : Line) : Nat :=
  if line.content.length = 0 then 1
  else cvl_aux line max_chars line.content.length 0

/-- `visual_line_count()`. -/
def visual_line_count (s : State) : Nat :=
  (s.lines.map (calculate_visual_lines s.max_chars_per_visual_line)).sum

/-- The `while pos < hpos` loop of `logical_to_visual_position`; fuel-based
(each productive step advances `pos` by at least 1 below `hpos`, so
`fuel = hpos` dominates). -/
def ltv_loop (line : Line) (max_chars hpos : Nat) : Nat → Nat → Nat → Nat × Nat
  | 0, pos, vl => (vl, pos)
  | fuel + 1, pos, vl =>
    if pos < hpos then
      let wrap_pos := find_wrap_position line pos max_chars
      if hpos ≤ wrap_pos ∨ wrap_pos ≤ pos then (vl, pos)
      else ltv_loop line max_chars hpos fuel wrap_pos (vl + 1)
    else (vl, pos)

/-- `logical_to_visual_position(logical_line_idx, hpos)`: returns
`(visual_line, visual_column)`. -/
def logical_to_visual_position (lines : List Line) (max_chars idx hpos : Nat) : Nat × Nat :=
  if lines.length ≤ idx then (0, 0)
  else
    let line := lines.getD idx Line.new
    if line.content.isEmpty then (0, 0)
    else
      let r := ltv_loop line max_chars hpos hpos 0 0
      (r.1, hpos - r.2)

/-- The cursor's visual row as `ensure_cursor_visible` computes it: the
visual line of the cursor *within its logical line*. -/
def cursor_row (s : State) : Nat :=
  (logical_to_visual_position s.lines s.max_chars_per_visual_line s.cursor_vpos s.cursor_hpos).1

/-- `ensure_cursor_visible()`. -/
def ensure_cursor_visible (s : State) : State :=
  let total := visual_line_count s
  let cursor_y : ℚ := (cursor_row s : ℚ) * s.line_height
  let so1 :=
    if cursor_y < s.scroll_offset_y then cursor_y
    else if s.scroll_offset_y + s.viewport_height < cursor_y + s.line_height then
      cursor_y + s.line_height - s.viewport_height
    else s.scroll_offset_y
  { s with scroll_offset_y := min (max so1 0) (max ((total : ℚ) * s.line_height - s.viewport_height) 0) }

/-! ## Cursor controller: edit and navigation handlers -/

/-- `ensure_line_exists(index)`. -/
def ensure_line_exists (s : State) (index : Nat) : State :=
  let lines1 := if s.lines.isEmpty then [Line.new] else s.lines
  let lines2 :=
    if lines1.length ≤ index then lines1 ++ List.replicate (index + 1 - lines1.length) Line.new
    else lines1
  { s with lines := lines2 }

/-- `update_max_chars()`. -/
def update_max_chars (s : State) : State :=
  let padding : ℚ := 20
  let available_width := max (s.viewport_width - padding) 0
  { s with max_chars_per_visual_line := max (Rat.floor (available_width / s.char_width)).toNat 1 }

/-- `set_viewport_size(size)`. -/
def set_viewport_size (s : State) (w h : ℚ) : State :=
  update_max_chars { s with viewport_width := w, viewport_height := h }

/-- `text()` as a character list: lines joined by a newline. -/
def text_chars (lines : List Line) : List Char :=
  List.intercalate ['\n'] (lines.map Line.content)

/-- The `char_count` accumulation of `update_cached_counts`: a line counts
only when nonempty and its first character is neither a newline nor a
space. -/
def char_count_rule : List Line → Nat
  | [] => 0
  | line :: rest =>
    (if line.content ≠ [] ∧ line.content.getD 0 ' ' ≠ '\n' ∧ line.content.getD 0 ' ' ≠ ' ' then
      line.content.length
    else 0) + char_count_rule rest

/-- `str::split_whitespace().count()`: number of maximal non-whitespace runs
(the `Bool` tracks whether we are inside a word). -/
def count_words : List Char → Bool → Nat
  | [], _ => 0
  | c :: rest, in_word =>
    if c.isWhitespace then count_words rest false
    else (if in_word then 0 else 1) + count_words rest true

/-- `update_cached_counts()`. -/
def update_cached_counts (s : State) : State :=
  { s with
    cached_char_count := char_count_rule s.lines
    cached_word_count := count_words (text_chars s.lines) false }

/-- `char_count()`. -/
def char_count (s : State) : Nat := s.cached_char_count

/-- `word_count()`. -/
def word_count (s : State) : Nat := s.cached_word_count

/-- `line_count()`. -/
def line_count (s : State) : Nat := s.lines.length

/-- `handle_enter` before its final `ensure_cursor_visible` (the returned
scroll direction only feeds the host message and is dropped here). -/
def enter_body (s : State) : State :=
  let s1 := ensure_line_exists s s.cursor_vpos
  let pr : State × Line :=
    if s1.cursor_hpos < (getLine s1 s1.cursor_vpos).content.length then
      let drained := (getLine s1 s1.cursor_vpos).drain_chars s1.cursor_hpos
        (getLine s1 s1.cursor_vpos).content.length
      let new_line := drained.1.foldl
        (fun nl c => nl.insert_char nl.content.length c s1.default_font s1.default_font_size)
        Line.new
      (setLine s1 s1.cursor_vpos drained.2.ensure_styles_match, new_line)
    else (s1, Line.new)
  let s2 := { pr.1 with lines := listInsertAt pr.1.lines (pr.1.cursor_vpos + 1) pr.2 }
  { s2 with cursor_vpos := s2.cursor_vpos + 1, cursor_hpos := 0 }

/-- `handle_enter()`. -/
def handle_enter (s : State) : State :=
  ensure_cursor_visible (enter_body s)

/-- The `while end_pos > 0 && content[end_pos-1].is_whitespace()` loop of
`handle_ctrl_backspace`. -/
def skip_ws_back (content : List Char) : Nat → Nat
  | 0 => 0
  | e + 1 =>
    if (content.getD e ' ').isWhitespace then skip_ws_back content e
    else e + 1

/-- `slice::rposition(|c| c.is_whitespace())`. -/
def rpos_ws : List Char → Option Nat
  | [] => none
  | c :: rest =>
    match rpos_ws rest with
    | some i => some (i + 1)
    | none => if c.isWhitespace then some 0 else none

/-- `handle_ctrl_backspace()`. -/
def handle_ctrl_backspace (s : State) : State :=
  if s.cursor_hpos = 0 ∨ s.lines.length ≤ s.cursor_vpos then s
  else
    let content := (getLine s s.cursor_vpos).content.take s.cursor_hpos
    let end_pos := skip_ws_back content s.cursor_hpos
    let start_pos :=
      if 0 < end_pos then
        match rpos_ws (content.take end_pos) with
        | some p => p + 1
        | none => 0
      else 0
    let s1 :=
      if start_pos < s.cursor_hpos then
        { setLine s s.cursor_vpos ((getLine s s.cursor_vpos).drain_chars start_pos s.cursor_hpos).2 with
          cursor_hpos := start_pos }
      else s
    update_cached_counts s1

/-- The `while e < len && ws(content[e])` loop of `handle_ctrl_delete`;
fuel ≥ `content.length` dominates. -/
def skip_ws_fwd (content : List Char) : Nat → Nat → Nat
  | 0, e => e
  | fuel + 1, e =>
    if e < content.length ∧ (content.getD e ' ').isWhitespace then skip_ws_fwd content fuel (e + 1)
    else e

/-- The `while e < len && not ws(content[e])` loop of `handle_ctrl_delete`. -/
def skip_word_fwd (content : List Char) : Nat → Nat → Nat
  | 0, e => e
  | fuel + 1, e =>
    if e < content.length ∧ ¬(content.getD e ' ').isWhitespace then skip_word_fwd content fuel (e + 1)
    else e

/-- `handle_ctrl_delete()`. -/
def handle_ctrl_delete (s : State) : State :=
  if s.lines.length ≤ s.cursor_vpos then s
  else
    let line := getLine s s.cursor_vpos
    let e1 := skip_ws_fwd line.content line.content.length s.cursor_hpos
    let e2 := skip_word_fwd line.content line.content.length e1
    if s.cursor_hpos < e2 then
      setLine s s.cursor_vpos (line.drain_chars s.cursor_hpos e2).2
    else s

/-- `join_with_previous_line()`. -/
def join_with_previous_line (s : State) : State :=
  if s.cursor_vpos = 0 ∨ s.lines.length ≤ s.cursor_vpos then s
  else
    let current := getLine s s.cursor_vpos
    let lines1 := s.lines.eraseIdx s.cursor_vpos
    let prev_idx := s.cursor_vpos - 1
    let new_cursor := (lines1.getD prev_idx Line.new).content.length
    { s with
      lines := lines1.set prev_idx ((lines1.getD prev_idx Line.new).append current)
      cursor_vpos := prev_idx
      cursor_hpos := new_cursor }

/-- `handle_backspace(modifiers)` before `ensure_cursor_visible` /
`update_cached_counts`. -/
def backspace_body (s : State) (ctrl : Bool) : State :=
  let s1 := ensure_line_exists s s.cursor_vpos
  let s2 :=
    if 0 < s1.cursor_hpos then
      if ctrl then handle_ctrl_backspace s1
      else
        { setLine s1 s1.cursor_vpos ((getLine s1 s1.cursor_vpos).remove_char (s1.cursor_hpos - 1)) with
          cursor_hpos := s1.cursor_hpos - 1 }
    else if 0 < s1.cursor_vpos then join_with_previous_line s1
    else s1
  if s2.cursor_vpos < s2.lines.length then
    setLine s2 s2.cursor_vpos (getLine s2 s2.cursor_vpos).ensure_styles_match
  else s2

/-- `handle_backspace(modifiers)`. -/
def handle_backspace (s : State) (ctrl : Bool) : State :=
  update_cached_counts (ensure_cursor_visible (backspace_body s ctrl))

/-- `join_with_next_line()`. -/
def join_with_next_line (s : State) : State :=
  if s.lines.length - 1 ≤ s.cursor_vpos then s
  else
    let next := getLine s (s.cursor_vpos + 1)
    let lines1 := s.lines.eraseIdx (s.cursor_vpos + 1)
    let merged := ((lines1.getD s.cursor_vpos Line.new).append next).ensure_styles_match
    { s with lines := lines1.set s.cursor_vpos merged }

/-- `handle_delete(modifiers)` before `update_cached_counts` (note: the
source never calls `ensure_cursor_visible` here). -/
def delete_body (s : State) (ctrl : Bool) : State :=
  let s1 := ensure_line_exists s s.cursor_vpos
  if ctrl then handle_ctrl_delete s1
  else if s1.cursor_hpos < (getLine s1 s1.cursor_vpos).content.length then
    setLine s1 s1.cursor_vpos ((getLine s1 s1.cursor_vpos).remove_char s1.cursor_hpos)
  else if s1.cursor_vpos < s1.lines.length - 1 then join_with_next_line s1
  else s1

/-- `handle_delete(modifiers)`. -/
def handle_delete (s : State) (ctrl : Bool) : State :=
  update_cached_counts (delete_body s ctrl)

/-- `handle_arrow_left()` before `ensure_cursor_visible`. -/
def arrow_left_body (s : State) : State :=
  if 0 < s.cursor_hpos then { s with cursor_hpos := s.cursor_hpos - 1 }
  else if 0 < s.cursor_vpos then
    let s1 := { s with cursor_vpos := s.cursor_vpos - 1 }
    let s2 := ensure_line_exists s1 s1.cursor_vpos
    { s2 with cursor_hpos := (getLine s2 s2.cursor_vpos).content.length }
  else s

/-- `handle_arrow_left()`. -/
def handle_arrow_left (s : State) : State :=
  ensure_cursor_visible (arrow_left_body s)

/-- `handle_arrow_right()` before `ensure_cursor_visible`. -/
def arrow_right_body (s : State) : State :=
  let s1 := ensure_line_exists s s.cursor_vpos
  if s1.cursor_hpos < (getLine s1 s1.cursor_vpos).content.length then
    { s1 with cursor_hpos := s1.cursor_hpos + 1 }
  else if s1.cursor_vpos < s1.lines.length - 1 then
    { s1 with cursor_vpos := s1.cursor_vpos + 1, cursor_hpos := 0 }
  else s1

/-- `handle_arrow_right()`. -/
def handle_arrow_right (s : State) : State :=
  ensure_cursor_visible (arrow_right_body s)

/-- The bounded chunk-advance loops of `handle_arrow_up` / `handle_arrow_down`:
`while current_visual < n && pos < len { pos = find_wrap_position(..) }` —
the counter bounds iterations structurally. -/
def advance_chunks (line : Line) (max_chars : Nat) : Nat → Nat → Nat
  | 0, pos => pos
  | n + 1, pos =>
    if pos < line.content.length then
      advance_chunks line max_chars n (find_wrap_position line pos max_chars)
    else pos

/-- `handle_arrow_up()` after its document-start early return and before the
final `ensure_cursor_visible`. -/
def arrow_up_body (s : State) : State :=
  let vc := logical_to_visual_position s.lines s.max_chars_per_visual_line s.cursor_vpos s.cursor_hpos
  if 0 < vc.1 then
    let line := getLine s s.cursor_vpos
    let pos := advance_chunks line s.max_chars_per_visual_line (vc.1 - 1) 0
    { s with
      cursor_hpos := min (pos + vc.2) (find_wrap_position line pos s.max_chars_per_visual_line - 1) }
  else if 0 < s.cursor_vpos then
    let s1 := { s with cursor_vpos := s.cursor_vpos - 1 }
    let prev_line := getLine s1 s1.cursor_vpos
    let prev_visual_lines := calculate_visual_lines s1.max_chars_per_visual_line prev_line
    if 0 < prev_visual_lines then
      let pos := advance_chunks prev_line s1.max_chars_per_visual_line (prev_visual_lines - 1) 0
      { s1 with cursor_hpos := min (pos + vc.2) prev_line.content.length }
    else { s1 with cursor_hpos := 0 }
  else s

/-- `handle_arrow_up()`: at document start (`vpos = 0 && hpos = 0`) the
source returns early, WITHOUT calling `ensure_cursor_visible`. -/
def handle_arrow_up (s : State) : State :=
  if s.cursor_vpos = 0 ∧ s.cursor_hpos = 0 then s
  else ensure_cursor_visible (arrow_up_body s)

/-- `handle_arrow_down()` after its document-end early return and before the
final `ensure_cursor_visible`. -/
def arrow_down_body (s : State) : State :=
  let vc := logical_to_visual_position s.lines s.max_chars_per_visual_line s.cursor_vpos s.cursor_hpos
  let current_line := getLine s s.cursor_vpos
  let current_cvl := calculate_visual_lines s.max_chars_per_visual_line current_line
  if vc.1 < current_cvl - 1 then
    let pos := advance_chunks current_line s.max_chars_per_visual_line (vc.1 + 1) 0
    { s with
      cursor_hpos := min (min (pos + vc.2)
        (find_wrap_position current_line pos s.max_chars_per_visual_line - 1))
        current_line.content.length }
  else if s.cursor_vpos < s.lines.length - 1 then
    { s with
      cursor_vpos := s.cursor_vpos + 1
      cursor_hpos := min vc.2 (getLine s (s.cursor_vpos + 1)).content.length }
  else s

/-- `handle_arrow_down()`: at document end (last line and `hpos` at or past
the end of its content) the source returns early, WITHOUT calling
`ensure_cursor_visible`. -/
def handle_arrow_down (s : State) : State :=
  if s.lines.length - 1 ≤ s.cursor_vpos ∧
      (getLine s s.cursor_vpos).content.length ≤ s.cursor_hpos then
    s
  else ensure_cursor_visible (arrow_down_body s)

/-- `handle_text_input(text)` (the dispatcher additionally calls
`update_cached_counts`; see `applyOp`). -/
def text_input_body (s : State) (text : List Char) : State :=
  let s1 := ensure_line_exists s s.cursor_vpos
  let s2 := setLine s1 s1.cursor_vpos
    ((getLine s1 s1.cursor_vpos).insert_text s1.cursor_hpos text s1.default_font s1.default_font_size)
  let s3 := { s2 with cursor_hpos := s2.cursor_hpos + text.length }
  setLine s3 s3.cursor_vpos (getLine s3 s3.cursor_vpos).ensure_styles_match

/-- `handle_text_input(text)`. -/
def handle_text_input (s : State) (text : List Char) : State :=
  ensure_cursor_visible (text_input_body s text)

/-- `usize::div_ceil` (for positive divisor). -/
def div_ceil (a b : Nat) : Nat := (a + b - 1) / b

/-- The per-line visual-line count the mouse handler uses:
`line.content.len().div_ceil(self.max_chars_per_visual_line)`. -/
def mouse_num_visual (line : Line) (max_chars : Nat) : Nat :=
  div_ceil line.content.length max_chars

/-- The line-finding loop of `handle_mouse_event`: returns
`(logical_vpos, remaining visual_line)`.  Without a `break`, `logical_vpos`
keeps its initial value `0` — exactly as in the source. -/
def mouse_find_line : List Line → Nat → Nat → Nat → Nat × Nat
  | [], _, vl, _ => (0, vl)
  | line :: rest, max_chars, vl, idx =>
    let num_visual := mouse_num_visual line max_chars
    if vl < num_visual then (idx, vl)
    else mouse_find_line rest max_chars (vl - num_visual) (idx + 1)

/-- `handle_mouse_event` for a left click at stored position `(px, py)`
(coordinate conversions `as usize` on nonnegative values are `Rat.floor`
followed by `Int.toNat`; both saturate negatives to `0` like `as usize`). -/
def handle_mouse_click (s : State) (px py : ℚ) : State :=
  let click_y := py + s.scroll_offset_y
  let fl := mouse_find_line s.lines s.max_chars_per_visual_line
    (Rat.floor (click_y / s.line_height)).toNat 0
  let line := s.lines.getD fl.1 Line.new
  let hpos := fl.2 * s.max_chars_per_visual_line + (Rat.floor ((px - 10) / s.char_width)).toNat
  { s with
    cursor_vpos := fl.1
    cursor_hpos := min hpos line.content.length
    cursor_visible := true }

/-- `WheelScrolled`: `dy` is the subtracted amount (`y * line_height` for
line deltas, `y` for pixel deltas). -/
def handle_wheel (s : State) (dy : ℚ) : State :=
  { s with scroll_offset_y := max (s.scroll_offset_y - dy) 0 }

/-! ## Externally triggered operations -/

/-- One normalized input event, as dispatched by `update` /
`handle_keyboard_event` / `handle_mouse_event` / `set_viewport_size`. -/
inductive Op where
  | textInput (text : List Char)
  | enter
  | backspace (ctrl : Bool)
  | delete (ctrl : Bool)
  | arrowLeft
  | arrowRight
  | arrowUp
  | arrowDown
  | mouseClick (px py : ℚ)
  | wheel (dy : ℚ)
  | resize (w h : ℚ)

/-- Event dispatch, exactly as the source routes events to handlers
(text input additionally refreshes the cached counts in the dispatcher). -/
def applyOp (s : State) : Op → State
  | .textInput t => update_cached_counts (handle_text_input s t)
  | .enter => handle_enter s
  | .backspace b => handle_backspace s b
  | .delete b => handle_delete s b
  | .arrowLeft => handle_arrow_left s
  | .arrowRight => handle_arrow_right s
  | .arrowUp => handle_arrow_up s
  | .arrowDown => handle_arrow_down s
  | .mouseClick px py => handle_mouse_click s px py
  | .wheel dy => handle_wheel s dy
  | .resize w h => set_viewport_size s w h

/-- A whole interaction session from a starting state. -/
def applyOps (ops : List Op) (s : State) : State :=
  ops.foldl applyOp s

/-! ## Specification-side definitions and invariant predicates -/

/-- The style-alignment invariant for one `Line` (spec §3). -/
def Aligned (l : Line) : Prop :=
  l.fonts.length = l.content.length ∧ l.font_sizes.length = l.content.length

instance (l : Line) : Decidable (Aligned l) := by unfold Aligned; infer_instance

/-- The reachable-state invariant: nonempty buffer, in-range cursor, aligned
style arrays, positive wrap width, nonnegative scroll. -/
def Valid (s : State) : Prop :=
  s.lines ≠ [] ∧
  s.cursor_vpos < s.lines.length ∧
  s.cursor_hpos ≤ (getLine s s.cursor_vpos).content.length ∧
  (∀ l ∈ s.lines, Aligned l) ∧
  1 ≤ s.max_chars_per_visual_line ∧
  0 ≤ s.scroll_offset_y

instance (s : State) : Decidable (Valid s) := by unfold Valid; infer_instance

/-- The cursor's reconciliation band: the row `ensure_cursor_visible` works
with lies inside `[scroll_offset_y, scroll_offset_y + viewport_height]`
(measured in pixels, as the source compares it). -/
def InBand (s : State) : Prop :=
  s.scroll_offset_y ≤ (cursor_row s : ℚ) * s.line_height ∧
  (cursor_row s : ℚ) * s.line_height + s.line_height ≤ s.scroll_offset_y + s.viewport_height

instance (s : State) : Decidable (InBand s) := by unfold InBand; infer_instance

/-- The largest whitespace index in `[start, e)`, found by downward scan
(spec §4.2: «scan backward from `candidate_end − 1` down to `start` for the
last whitespace character»). -/
def last_ws_index_below (content : List Char) (start : Nat) : Nat → Option Nat
  | 0 => none
  | e + 1 =>
    if start ≤ e ∧ (content.getD e ' ').isWhitespace then some e
    else last_ws_index_below content start e

/-- `find_wrap_position` as the spec states it: candidate end
`min(start + max_chars, len)`; return it when it equals `len`; otherwise one
plus the last whitespace index in `[start, candidate_end)` if any, else the
candidate end (hard mid-word break). -/
def find_wrap_position_spec (line : Line) (start max_chars : Nat) : Nat :=
  let candidate_end := min (start + max_chars) line.content.length
  if candidate_end = line.content.length then candidate_end
  else
    match last_ws_index_below line.content start candidate_end with
    | some i => i + 1
    | none => candidate_end

/-- Test fixture: a line of plain text with aligned default styles. -/
def mkLine (s : String) : Line :=
  { content := s.toList
    fonts := List.replicate s.length Font.default
    font_sizes := List.replicate s.length 12 }

/-! ## List-level lemmas -/

lemma getD_set_self {α : Type} (l : List α) (i : Nat) (x d : α) (h : i < l.length) :
    (l.set i x).getD i d = x := by
  have h2 : i < (l.set i x).length := by simpa using h
  rw [List.getD_eq_getElem _ _ h2]
  exact List.getElem_set_self h2

lemma length_listInsertAt {α : Type} (l : List α) (pos : Nat) (a : α) (h : pos ≤ l.length) :
    (listInsertAt l pos a).length = l.length + 1 := by
  simp only [listInsertAt, List.length_append, List.length_take, List.length_cons,
    List.length_drop]
  omega

lemma mem_listInsertAt {α : Type} {l : List α} {pos : Nat} {a x : α}
    (h : x ∈ listInsertAt l pos a) : x ∈ l ∨ x = a := by
  unfold listInsertAt at h
  rcases List.mem_append.1 h with h1 | h2
  · exact Or.inl (List.take_subset _ _ h1)
  · rcases List.mem_cons.1 h2 with h3 | h4
    · exact Or.inr h3
    · exact Or.inl (List.drop_subset _ _ h4)

/-! ## Line-level lemmas -/

lemma Line.new_aligned : Aligned Line.new := ⟨rfl, rfl⟩

lemma Line.ensure_styles_match_content (l : Line) :
    l.ensure_styles_match.content = l.content := rfl

lemma Line.ensure_styles_match_aligned (l : Line) : Aligned l.ensure_styles_match := by
  unfold Line.ensure_styles_match Aligned
  dsimp only
  constructor <;>
    · split_ifs <;>
        · try simp only [List.length_append, List.length_replicate, List.length_take]
          omega

lemma Line.insert_char_aligned {l : Line} (h : Aligned l) (pos : Nat) (c : Char) (f : Font)
    (sz : ℚ) : Aligned (l.insert_char pos c f sz) := by
  obtain ⟨h1, h2⟩ := h
  unfold Line.insert_char listInsertAt Aligned
  constructor <;>
    · simp only [List.length_append, List.length_take, List.length_cons, List.length_drop,
        h1, h2]

lemma Line.insert_char_content (l : Line) (pos : Nat) (c : Char) (f : Font) (sz : ℚ) :
    (l.insert_char pos c f sz).content = l.content.take pos ++ c :: l.content.drop pos := rfl

lemma Line.insert_char_content_length {l : Line} {pos : Nat} (h : pos ≤ l.content.length)
    (c : Char) (f : Font) (sz : ℚ) :
    (l.insert_char pos c f sz).content.length = l.content.length + 1 :=
  length_listInsertAt _ _ _ h

lemma Line.remove_char_aligned {l : Line} (h : Aligned l) (pos : Nat) :
    Aligned (l.remove_char pos) := by
  obtain ⟨h1, h2⟩ := h
  unfold Line.remove_char listRemoveAt Aligned
  simp only [h1, h2]
  split_ifs with hc
  · constructor <;>
      simp only [List.length_append, List.length_take, List.length_drop, h1, h2] <;> omega
  · exact ⟨h1, h2⟩

lemma Line.remove_char_content {l : Line} {pos : Nat} (h : pos < l.content.length) :
    (l.remove_char pos).content = l.content.take pos ++ l.content.drop (pos + 1) := by
  unfold Line.remove_char
  rw [if_pos h]
  rfl

lemma Line.remove_char_content_length {l : Line} {pos : Nat} (h : pos < l.content.length) :
    (l.remove_char pos).content.length = l.content.length - 1 := by
  rw [Line.remove_char_content h]
  simp only [List.length_append, List.length_take, List.length_drop]
  omega

lemma Line.drain_chars_content (l : Line) (start stop : Nat) :
    (l.drain_chars start stop).2.content = l.content.take start ++ l.content.drop stop := rfl

lemma Line.drain_chars_fst (l : Line) (start stop : Nat) :
    (l.drain_chars start stop).1 = (l.content.drop start).take (stop - start) := rfl

lemma Line.drain_chars_aligned {l : Line} (h : Aligned l) {start stop : Nat}
    (hss : start ≤ stop) : Aligned (l.drain_chars start stop).2 := by
  obtain ⟨h1, h2⟩ := h
  unfold Line.drain_chars Aligned
  dsimp only
  simp only [h1, h2]
  split_ifs with hc
  · constructor <;>
      simp only [List.length_append, List.length_take, List.length_drop, h1, h2] <;> omega
  · constructor <;>
      simp only [List.length_append, List.length_take, List.length_drop, h1, h2] <;> omega

lemma Line.drain_chars_content_length {l : Line} {start stop : Nat} (h1 : start ≤ stop)
    (h2 : stop ≤ l.content.length) :
    (l.drain_chars start stop).2.content.length = l.content.length - (stop - start) := by
  rw [Line.drain_chars_content]
  simp only [List.length_append, List.length_take, List.length_drop]
  omega

lemma Line.append_aligned {l m : Line} (hl : Aligned l) (hm : Aligned m) :
    Aligned (l.append m) := by
  obtain ⟨a1, a2⟩ := hl
  obtain ⟨b1, b2⟩ := hm
  unfold Line.append Aligned
  constructor <;> · simp only [List.length_append, a1, a2, b1, b2]

lemma Line.append_content (l m : Line) : (l.append m).content = l.content ++ m.content := rfl

/-- Full characterization of the `handle_text_input` insertion loop on an
aligned line with an in-range position. -/
lemma Line.insert_text_spec (text : List Char) :
    ∀ (l : Line) (pos : Nat) (f : Font) (sz : ℚ), Aligned l → pos ≤ l.content.length →
      (l.insert_text pos text f sz).content = l.content.take pos ++ text ++ l.content.drop pos ∧
      (l.insert_text pos text f sz).fonts =
        l.fonts.take pos ++ List.replicate text.length f ++ l.fonts.drop pos ∧
      (l.insert_text pos text f sz).font_sizes =
        l.font_sizes.take pos ++ List.replicate text.length sz ++ l.font_sizes.drop pos := by
  induction text with
  | nil =>
    intro l pos f sz _ hp
    simp [Line.insert_text]
  | cons c rest ih =>
    intro l pos f sz hA hp
    obtain ⟨hf, hz⟩ := hA
    have hA1 : Aligned (l.insert_char pos c f sz) := Line.insert_char_aligned ⟨hf, hz⟩ pos c f sz
    have hp1 : pos + 1 ≤ (l.insert_char pos c f sz).content.length := by
      rw [Line.insert_char_content_length hp]
      omega
    obtain ⟨e1, e2, e3⟩ := ih (l.insert_char pos c f sz) (pos + 1) f sz hA1 hp1
    have htake : ∀ (α : Type) (xs : List α) (a : α), xs.length = pos →
        ∀ ys : List α, (xs ++ a :: ys).take (pos + 1) = xs ++ [a] := by
      intro α xs a hxs ys
      rw [List.take_append_eq_append_take, List.take_of_length_le (by omega), hxs]
      simp
    have hdrop : ∀ (α : Type) (xs : List α) (a : α), xs.length = pos →
        ∀ ys : List α, (xs ++ a :: ys).drop (pos + 1) = ys := by
      intro α xs a hxs ys
      rw [List.drop_append_eq_append_drop, List.drop_of_length_le (by omega), hxs]
      simp
    refine ⟨?_, ?_, ?_⟩
    · rw [Line.insert_text, e1, Line.insert_char_content,
        htake Char (l.content.take pos) c (by simp; omega) _,
        hdrop Char (l.content.take pos) c (by simp; omega) _]
      simp
    · rw [Line.insert_text, e2]
      show (listInsertAt l.fonts pos f).take (pos + 1) ++ _ ++ (listInsertAt l.fonts pos f).drop (pos + 1) = _
      unfold listInsertAt
      rw [htake Font (l.fonts.take pos) f (by simp; omega) _,
        hdrop Font (l.fonts.take pos) f (by simp; omega) _]
      simp [List.replicate_succ]
    · rw [Line.insert_text, e3]
      show (listInsertAt l.font_sizes pos sz).take (pos + 1) ++ _ ++ (listInsertAt l.font_sizes pos sz).drop (pos + 1) = _
      unfold listInsertAt
      rw [htake ℚ (l.font_sizes.take pos) sz (by simp; omega) _,
        hdrop ℚ (l.font_sizes.take pos) sz (by simp; omega) _]
      simp [List.replicate_succ]

lemma Line.insert_text_content_length {l : Line} {pos : Nat} {text : List Char} {f : Font}
    {sz : ℚ} (hA : Aligned l) (hp : pos ≤ l.content.length) :
    (l.insert_text pos text f sz).content.length = l.content.length + text.length := by
  obtain ⟨e1, -, -⟩ := Line.insert_text_spec text l pos f sz hA hp
  rw [e1]
  simp only [List.length_append, List.length_take, List.length_drop]
  omega

lemma Line.insert_text_aligned {l : Line} {pos : Nat} {text : List Char} {f : Font} {sz : ℚ}
    (hA : Aligned l) (hp : pos ≤ l.content.length) :
    Aligned (l.insert_text pos text f sz) := by
  obtain ⟨hf, hz⟩ := hA
  obtain ⟨e1, e2, e3⟩ := Line.insert_text_spec text l pos f sz ⟨hf, hz⟩ hp
  constructor
  · rw [e1, e2]
    simp only [List.length_append, List.length_take, List.length_drop, List.length_replicate,
      hf, hz]
  · rw [e1, e3]
    simp only [List.length_append, List.length_take, List.length_drop, List.length_replicate,
      hf, hz]

/-! ## Wrap-engine lemmas -/

lemma scan_back_ws_le {content : List Char} {start : Nat} :
    ∀ {e r : Nat}, scan_back_ws content start e = some r → r ≤ e := by
  intro e
  induction e with
  | zero => intro r h; simp [scan_back_ws] at h
  | succ e ih =>
    intro r h
    unfold scan_back_ws at h
    split_ifs at h with h1 h2
    · cases h
      omega
    · exact Nat.le_succ_of_le (ih h)

lemma scan_back_ws_gt {content : List Char} {start : Nat} :
    ∀ {e r : Nat}, scan_back_ws content start e = some r → start < r := by
  intro e
  induction e with
  | zero => intro r h; simp [scan_back_ws] at h
  | succ e ih =>
    intro r h
    unfold scan_back_ws at h
    split_ifs at h with h1 h2
    · cases h; omega
    · exact ih h

lemma last_ws_index_below_none_of_le {content : List Char} {start : Nat} :
    ∀ {e : Nat}, e ≤ start → last_ws_index_below content start e = none := by
  intro e
  induction e with
  | zero => intro _; rfl
  | succ e ih =>
    intro h
    unfold last_ws_index_below
    rw [if_neg (by omega)]
    exact ih (by omega)

lemma scan_back_ws_eq_last_ws (content : List Char) (start : Nat) :
    ∀ e, scan_back_ws content start e =
      (last_ws_index_below content start e).map (fun i => i + 1) := by
  intro e
  induction e with
  | zero => rfl
  | succ e ih =>
    unfold scan_back_ws last_ws_index_below
    by_cases h1 : start ≤ e
    · by_cases h2 : (content.getD e ' ').isWhitespace
      · rw [if_pos h1, if_pos h2, if_pos ⟨h1, h2⟩]
        rfl
      · rw [if_pos h1, if_neg h2, if_neg (by tauto), ih]
    · rw [if_neg h1, if_neg (by tauto), last_ws_index_below_none_of_le (by omega)]
      rfl

/-- C4: for every line, start position and max_chars, the source
`find_wrap_position` computes exactly the spec formula: candidate end
`min(start + max_chars, len)`; return it when it equals `len`; otherwise one
plus the largest whitespace index in `[start, candidate_end)` when one
exists; otherwise the candidate end (hard mid-word break). -/
theorem C4_find_wrap_position_eq_spec (line : Line) (start max_chars : Nat) :
    find_wrap_position line start max_chars = find_wrap_position_spec line start max_chars := by
  unfold find_wrap_position find_wrap_position_spec
  dsimp only
  rw [scan_back_ws_eq_last_ws]
  by_cases h1 : min (start + max_chars) line.content.length = line.content.length
  · rw [if_pos (Or.inr h1), if_pos h1]
  · have h2 : min (start + max_chars) line.content.length < line.content.length := by omega
    rw [if_neg h1]
    by_cases h3 : start ≥ min (start + max_chars) line.content.length
    · have h4 : min (start + max_chars) line.content.length = start := by omega
      rw [if_pos (Or.inl h3), h4,
        last_ws_index_below_none_of_le (le_refl start)]
    · rw [if_neg (by tauto)]
      cases last_ws_index_below line.content start (min (start + max_chars) line.content.length) with
      | none => rfl
      | some i => rfl

lemma find_wrap_position_le (line : Line) (start max_chars : Nat) :
    find_wrap_position line start max_chars ≤ line.content.length := by
  unfold find_wrap_position
  dsimp only
  split_ifs with h
  · omega
  · split
    · rename_i r hr
      exact le_trans (scan_back_ws_le hr) (by omega)
    · omega

lemma find_wrap_position_gt {line : Line} {start max_chars : Nat}
    (h1 : start < line.content.length) (h2 : 1 ≤ max_chars) :
    start < find_wrap_position line start max_chars := by
  unfold find_wrap_position
  dsimp only
  split_ifs with h
  · omega
  · split
    · rename_i r hr
      exact scan_back_ws_gt hr
    · omega

/-! ## Visual-line counting lemmas -/

lemma cvl_aux_zero_of_le (line : Line) (max_chars : Nat) :
    ∀ (fuel pos : Nat), line.content.length ≤ pos → cvl_aux line max_chars fuel pos = 0 := by
  intro fuel pos h
  cases fuel with
  | zero => rfl
  | succ f =>
    unfold cvl_aux
    rw [if_neg (by omega)]

lemma cvl_aux_pos {line : Line} {max_chars : Nat} {fuel pos : Nat}
    (h1 : pos < line.content.length) (h2 : 1 ≤ fuel) :
    1 ≤ cvl_aux line max_chars fuel pos := by
  obtain ⟨g, rfl⟩ : ∃ g, fuel = g + 1 := ⟨fuel - 1, by omega⟩
  unfold cvl_aux
  rw [if_pos h1]
  omega

lemma cvl_aux_succ {line : Line} {max_chars fuel pos : Nat} (h : pos < line.content.length) :
    cvl_aux line max_chars (fuel + 1) pos =
      1 + cvl_aux line max_chars fuel (find_wrap_position line pos max_chars) := by
  conv_lhs => rw [cvl_aux]
  rw [if_pos h]

/-- Fuel sufficiency for the wrap loop: with `max_chars ≥ 1`, any fuel at
least `content.length − pos` computes the same chunk count — i.e., the
source's unbounded loop terminates and the fuel model is exact. -/
lemma cvl_aux_fuel_eq {line : Line} {max_chars : Nat} (hmc : 1 ≤ max_chars) :
    ∀ (n fuel1 fuel2 pos : Nat), line.content.length - pos ≤ n →
      line.content.length - pos ≤ fuel1 → line.content.length - pos ≤ fuel2 →
      cvl_aux line max_chars fuel1 pos = cvl_aux line max_chars fuel2 pos := by
  intro n
  induction n with
  | zero =>
    intro f1 f2 pos h _ _
    rw [cvl_aux_zero_of_le _ _ _ _ (by omega), cvl_aux_zero_of_le _ _ _ _ (by omega)]
  | succ n ih =>
    intro f1 f2 pos h h1 h2
    by_cases hp : pos < line.content.length
    · obtain ⟨g1, rfl⟩ : ∃ g, f1 = g + 1 := ⟨f1 - 1, by omega⟩
      obtain ⟨g2, rfl⟩ : ∃ g, f2 = g + 1 := ⟨f2 - 1, by omega⟩
      unfold cvl_aux
      rw [if_pos hp, if_pos hp]
      have hgt := find_wrap_position_gt hp hmc
      have hle := find_wrap_position_le line pos max_chars
      have := ih g1 g2 (find_wrap_position line pos max_chars) (by omega) (by omega) (by omega)
      omega
    · rw [cvl_aux_zero_of_le _ _ _ _ (by omega), cvl_aux_zero_of_le _ _ _ _ (by omega)]

lemma calculate_visual_lines_pos {max_chars : Nat} (hmc : 1 ≤ max_chars) (line : Line) :
    1 ≤ calculate_visual_lines max_chars line := by
  unfold calculate_visual_lines
  split_ifs with h
  · omega
  · exact cvl_aux_pos (by omega) (by omega)

/-- The `logical_to_visual_position` loop never reaches the chunk count of
its line: its visual-line component is strictly below the chunk count from
`pos` (counted with enough fuel). -/
lemma ltv_loop_fst_lt {line : Line} {max_chars hpos : Nat} (hmc : 1 ≤ max_chars)
    (hh : hpos ≤ line.content.length) :
    ∀ (fuel pos vl cf : Nat), pos < hpos → line.content.length - pos ≤ cf →
      (ltv_loop line max_chars hpos fuel pos vl).1 < vl + cvl_aux line max_chars cf pos := by
  intro fuel
  induction fuel with
  | zero =>
    intro pos vl cf hp hcf
    have : 1 ≤ cvl_aux line max_chars cf pos := cvl_aux_pos (by omega) (by omega)
    unfold ltv_loop
    omega
  | succ fuel ih =>
    intro pos vl cf hp hcf
    have hcv : 1 ≤ cvl_aux line max_chars cf pos := cvl_aux_pos (by omega) (by omega)
    unfold ltv_loop
    rw [if_pos hp]
    dsimp only
    split_ifs with hbr
    · omega
    · push_neg at hbr
      obtain ⟨hbr1, hbr2⟩ := hbr
      obtain ⟨g, rfl⟩ : ∃ g, cf = g + 1 := ⟨cf - 1, by omega⟩
      have hstep := ih (find_wrap_position line pos max_chars) (vl + 1) g (by omega) (by omega)
      have := @cvl_aux_succ line max_chars g pos (by omega)
      omega

/-! ## State-level lemmas -/

lemma getLine_mem {s : State} {i : Nat} (h : i < s.lines.length) : getLine s i ∈ s.lines := by
  unfold getLine
  rw [List.getD_eq_getElem _ _ h]
  exact List.getElem_mem h

lemma aligned_all_set {s : State} {i : Nat} {l : Line} (h : ∀ x ∈ s.lines, Aligned x)
    (hl : Aligned l) : ∀ x ∈ s.lines.set i l, Aligned x := by
  intro x hx
  rcases List.mem_or_eq_of_mem_set hx with h1 | h2
  · exact h x h1
  · rw [h2]
    exact hl

lemma ensure_line_exists_eq {s : State} {i : Nat} (h1 : s.lines ≠ []) (h2 : i < s.lines.length) :
    ensure_line_exists s i = s := by
  unfold ensure_line_exists
  have hne : s.lines.isEmpty = false := by
    simpa [List.isEmpty_iff] using h1
  rw [hne]
  simp only [Bool.false_eq_true, if_false]
  rw [if_neg (by omega)]

lemma valid_ensure_cursor_visible {s : State} (h : Valid s) : Valid (ensure_cursor_visible s) := by
  obtain ⟨h1, h2, h3, h4, h5, h6⟩ := h
  refine ⟨h1, h2, h3, h4, h5, ?_⟩
  show (0 : ℚ) ≤ min _ _
  exact le_min (le_max_right _ 0) (le_max_right _ 0)

lemma valid_update_cached_counts {s : State} (h : Valid s) : Valid (update_cached_counts s) := h

lemma inBand_update_cached_counts (s : State) : InBand (update_cached_counts s) ↔ InBand s :=
  Iff.rfl

lemma cursor_row_lt_cvl {s : State} (h : Valid s) :
    cursor_row s < calculate_visual_lines s.max_chars_per_visual_line (getLine s s.cursor_vpos) := by
  obtain ⟨hne, hv, hh, hal, hmc, hsc⟩ := h
  unfold getLine at hh ⊢
  unfold cursor_row logical_to_visual_position
  rw [if_neg (by omega)]
  dsimp only
  set line := s.lines.getD s.cursor_vpos Line.new with hline
  by_cases he : line.content.isEmpty
  · rw [if_pos he]
    unfold calculate_visual_lines
    rw [if_pos (by simpa [List.isEmpty_iff, List.length_eq_zero] using he)]
    exact Nat.zero_lt_one
  · rw [if_neg he]
    dsimp only
    have hlen : 0 < line.content.length := by
      rcases Nat.eq_zero_or_pos line.content.length with h0 | h0
      · exact absurd (by simpa [List.isEmpty_iff, List.length_eq_zero] using h0) he
      · exact h0
    unfold calculate_visual_lines
    rw [if_neg (by omega)]
    by_cases hz : s.cursor_hpos = 0
    · rw [hz]
      show (ltv_loop line s.max_chars_per_visual_line 0 0 0 0).1 < _
      exact cvl_aux_pos hlen (by omega)
    · have h5 := ltv_loop_fst_lt hmc hh s.cursor_hpos 0 0 line.content.length (by omega) (by omega)
      omega

lemma cvl_cursor_le_total {s : State} (h : Valid s) :
    calculate_visual_lines s.max_chars_per_visual_line (getLine s s.cursor_vpos) ≤
      visual_line_count s := by
  obtain ⟨hne, hv, hh, hal, hmc, hsc⟩ := h
  unfold visual_line_count
  refine List.single_le_sum (fun x _ => Nat.zero_le x) _ ?_
  exact List.mem_map_of_mem _ (getLine_mem hv)

/-- After `ensure_cursor_visible`, the cursor row it reconciles against lies
inside the viewport band, provided the line height fits the viewport. -/
lemma ensure_cursor_visible_inBand {s : State} (h : Valid s)
    (hlh : 0 ≤ s.line_height) (hvh : s.line_height ≤ s.viewport_height) :
    InBand (ensure_cursor_visible s) := by
  have hrow : cursor_row s + 1 ≤ visual_line_count s :=
    Nat.succ_le_of_lt (lt_of_lt_of_le (cursor_row_lt_cvl h) (cvl_cursor_le_total h))
  obtain ⟨-, -, -, -, -, hsc⟩ := h
  have hY0 : (0 : ℚ) ≤ (cursor_row s : ℚ) * s.line_height :=
    mul_nonneg (Nat.cast_nonneg _) hlh
  have htot : (cursor_row s : ℚ) * s.line_height + s.line_height ≤
      (visual_line_count s : ℚ) * s.line_height := by
    have hcast : ((cursor_row s : ℚ) + 1) ≤ (visual_line_count s : ℚ) := by
      exact_mod_cast hrow
    calc (cursor_row s : ℚ) * s.line_height + s.line_height
        = ((cursor_row s : ℚ) + 1) * s.line_height := by ring
      _ ≤ (visual_line_count s : ℚ) * s.line_height :=
        mul_le_mul_of_nonneg_right hcast hlh
  have hMv : (cursor_row s : ℚ) * s.line_height + s.line_height ≤
      max ((visual_line_count s : ℚ) * s.line_height - s.viewport_height) 0 + s.viewport_height := by
    have := le_max_left ((visual_line_count s : ℚ) * s.line_height - s.viewport_height) (0 : ℚ)
    linarith
  have key : ∀ so1 : ℚ,
      (cursor_row s : ℚ) * s.line_height + s.line_height - s.viewport_height ≤ so1 →
      so1 ≤ (cursor_row s : ℚ) * s.line_height → 0 ≤ so1 →
      min (max so1 0) (max ((visual_line_count s : ℚ) * s.line_height - s.viewport_height) 0) ≤
          (cursor_row s : ℚ) * s.line_height ∧
        (cursor_row s : ℚ) * s.line_height + s.line_height ≤
          min (max so1 0) (max ((visual_line_count s : ℚ) * s.line_height - s.viewport_height) 0) +
            s.viewport_height := by
    intro so1 hlo hhi h0
    constructor
    · refine le_trans (min_le_left _ _) ?_
      rw [max_eq_left h0]
      exact hhi
    · have a1 : (cursor_row s : ℚ) * s.line_height + s.line_height - s.viewport_height ≤
          max so1 0 := le_trans hlo (le_max_left _ _)
      have a2 : (cursor_row s : ℚ) * s.line_height + s.line_height - s.viewport_height ≤
          max ((visual_line_count s : ℚ) * s.line_height - s.viewport_height) 0 := by
        linarith
      have := le_min a1 a2
      linarith
  show min (max (ite _ _ _) 0) _ ≤ _ ∧ _ + _ ≤ min (max (ite _ _ _) 0) _ + _
  split_ifs with hc1 hc2
  · exact key _ (by linarith) (le_refl _) hY0
  · exact key _ (le_refl _) (by linarith) (by linarith)
  · exact key _ (by push_neg at hc2; linarith) (by push_neg at hc1; linarith) hsc

lemma mouse_find_line_fst_lt :
    ∀ (ls : List Line) (mc vl idx : Nat),
      (mouse_find_line ls mc vl idx).1 = 0 ∨ (mouse_find_line ls mc vl idx).1 < idx + ls.length := by
  intro ls
  induction ls with
  | nil => intro mc vl idx; exact Or.inl rfl
  | cons line rest ih =>
    intro mc vl idx
    unfold mouse_find_line
    dsimp only
    split_ifs with h
    · right
      simp only [List.length_cons]
      omega
    · rcases ih mc (vl - mouse_num_visual line mc) (idx + 1) with h1 | h2
      · exact Or.inl h1
      · right
        simp only [List.length_cons]
        omega

/-! ## Preservation of the state invariant -/

lemma getD_mem {α : Type} (l : List α) (i : Nat) (d : α) (h : i < l.length) : l.getD i d ∈ l := by
  rw [List.getD_eq_getElem _ _ h]
  exact List.getElem_mem h

lemma getD_eraseIdx_of_lt {α : Type} (l : List α) (i j : Nat) (d : α) (hji : j < i)
    (hjl : j < (l.eraseIdx i).length) : (l.eraseIdx i).getD j d = l.getD j d := by
  have hjl2 : j < l.length := by
    rw [List.length_eraseIdx] at hjl
    split_ifs at hjl <;> omega
  rw [List.getD_eq_getElem _ _ hjl, List.getElem_eraseIdx_of_lt l i j hjl hji,
    List.getD_eq_getElem _ _ hjl2]

lemma listInsertAt_ne_nil {α : Type} (l : List α) (pos : Nat) (a : α) :
    listInsertAt l pos a ≠ [] := by
  unfold listInsertAt
  intro h
  have := congrArg List.length h
  simp at this

lemma skip_ws_fwd_ge (content : List Char) :
    ∀ fuel e, e ≤ skip_ws_fwd content fuel e := by
  intro fuel
  induction fuel with
  | zero => intro e; exact le_refl e
  | succ fuel ih =>
    intro e
    unfold skip_ws_fwd
    split_ifs with h
    · exact le_trans (by omega) (ih (e + 1))
    · exact le_refl e

lemma skip_ws_fwd_le (content : List Char) :
    ∀ fuel e, e ≤ content.length → skip_ws_fwd content fuel e ≤ content.length := by
  intro fuel
  induction fuel with
  | zero => intro e h; exact h
  | succ fuel ih =>
    intro e h
    unfold skip_ws_fwd
    split_ifs with hc
    · exact ih (e + 1) (by omega)
    · exact h

lemma skip_word_fwd_ge (content : List Char) :
    ∀ fuel e, e ≤ skip_word_fwd content fuel e := by
  intro fuel
  induction fuel with
  | zero => intro e; exact le_refl e
  | succ fuel ih =>
    intro e
    unfold skip_word_fwd
    split_ifs with h
    · exact le_trans (by omega) (ih (e + 1))
    · exact le_refl e

lemma skip_word_fwd_le (content : List Char) :
    ∀ fuel e, e ≤ content.length → skip_word_fwd content fuel e ≤ content.length := by
  intro fuel
  induction fuel with
  | zero => intro e h; exact h
  | succ fuel ih =>
    intro e h
    unfold skip_word_fwd
    split_ifs with hc
    · exact ih (e + 1) (by omega)
    · exact h

lemma hpos_after_drain {l : Line} {a b : Nat} (hab : a ≤ b) (hbl : b ≤ l.content.length) :
    a ≤ (l.drain_chars a b).2.content.length := by
  rw [Line.drain_chars_content_length hab hbl]
  omega

lemma foldl_insert_char_aligned (cs : List Char) (f : Font) (sz : ℚ) :
    ∀ nl : Line, Aligned nl →
      Aligned (cs.foldl (fun nl c => nl.insert_char nl.content.length c f sz) nl) := by
  induction cs with
  | nil => intro nl h; exact h
  | cons c rest ih =>
    intro nl h
    exact ih _ (Line.insert_char_aligned h _ _ _ _)

lemma valid_handle_wheel {s : State} (h : Valid s) (dy : ℚ) : Valid (handle_wheel s dy) := by
  obtain ⟨h1, h2, h3, h4, h5, h6⟩ := h
  exact ⟨h1, h2, h3, h4, h5, le_max_right _ 0⟩

lemma valid_set_viewport_size {s : State} (h : Valid s) (w hh : ℚ) :
    Valid (set_viewport_size s w hh) := by
  obtain ⟨h1, h2, h3, h4, h5, h6⟩ := h
  exact ⟨h1, h2, h3, h4, le_max_right _ 1, h6⟩

lemma valid_handle_mouse_click {s : State} (h : Valid s) (px py : ℚ) :
    Valid (handle_mouse_click s px py) := by
  obtain ⟨h1, h2, h3, h4, h5, h6⟩ := h
  unfold handle_mouse_click
  dsimp only
  refine ⟨h1, ?_, ?_, h4, h5, h6⟩
  · rcases mouse_find_line_fst_lt s.lines s.max_chars_per_visual_line
      (Rat.floor ((py + s.scroll_offset_y) / s.line_height)).toNat 0 with hz | hlt
    · rw [hz]
      exact List.length_pos.mpr h1
    · simpa using hlt
  · exact min_le_right _ _

lemma valid_arrow_left_body {s : State} (h : Valid s) : Valid (arrow_left_body s) := by
  obtain ⟨h1, h2, h3, h4, h5, h6⟩ := h
  unfold arrow_left_body
  dsimp only
  split_ifs with ha hb
  · exact ⟨h1, h2,
      by show s.cursor_hpos - 1 ≤ (getLine s s.cursor_vpos).content.length; omega, h4, h5, h6⟩
  · have e1 : ensure_line_exists { s with cursor_vpos := s.cursor_vpos - 1 }
        (s.cursor_vpos - 1) = { s with cursor_vpos := s.cursor_vpos - 1 } :=
      ensure_line_exists_eq h1 (by show s.cursor_vpos - 1 < s.lines.length; omega)
    rw [e1]
    exact ⟨h1, by show s.cursor_vpos - 1 < s.lines.length; omega, le_refl _, h4, h5, h6⟩
  · exact ⟨h1, h2, h3, h4, h5, h6⟩

lemma valid_arrow_right_body {s : State} (h : Valid s) : Valid (arrow_right_body s) := by
  obtain ⟨h1, h2, h3, h4, h5, h6⟩ := h
  unfold arrow_right_body
  rw [ensure_line_exists_eq h1 h2]
  dsimp only
  split_ifs with ha hb
  · exact ⟨h1, h2,
      by show s.cursor_hpos + 1 ≤ (getLine s s.cursor_vpos).content.length; omega, h4, h5, h6⟩
  · exact ⟨h1, by show s.cursor_vpos + 1 < s.lines.length; omega, Nat.zero_le _, h4, h5, h6⟩
  · exact ⟨h1, h2, h3, h4, h5, h6⟩

lemma valid_arrow_up_body {s : State} (h : Valid s) : Valid (arrow_up_body s) := by
  obtain ⟨h1, h2, h3, h4, h5, h6⟩ := h
  unfold arrow_up_body
  dsimp only
  split_ifs with ha hb hc
  · refine ⟨h1, h2, ?_, h4, h5, h6⟩
    have hle := find_wrap_position_le (getLine s s.cursor_vpos)
      (advance_chunks (getLine s s.cursor_vpos) s.max_chars_per_visual_line
        ((logical_to_visual_position s.lines s.max_chars_per_visual_line s.cursor_vpos
          s.cursor_hpos).1 - 1) 0)
      s.max_chars_per_visual_line
    show min _ _ ≤ (getLine s s.cursor_vpos).content.length
    omega
  · refine ⟨h1, by show s.cursor_vpos - 1 < s.lines.length; omega, ?_, h4, h5, h6⟩
    exact min_le_right _ _
  · exact ⟨h1, by show s.cursor_vpos - 1 < s.lines.length; omega, Nat.zero_le _, h4, h5, h6⟩
  · exact ⟨h1, h2, h3, h4, h5, h6⟩

lemma valid_arrow_down_body {s : State} (h : Valid s) : Valid (arrow_down_body s) := by
  obtain ⟨h1, h2, h3, h4, h5, h6⟩ := h
  unfold arrow_down_body
  dsimp only
  split_ifs with ha hb
  · exact ⟨h1, h2, min_le_right _ _, h4, h5, h6⟩
  · exact ⟨h1, by show s.cursor_vpos + 1 < s.lines.length; omega, min_le_right _ _, h4, h5, h6⟩
  · exact ⟨h1, h2, h3, h4, h5, h6⟩

/-- Replacing the cursor line with an aligned line and clamping the cursor
to a position inside it preserves the invariant. -/
lemma valid_setLine_hpos {s : State} {l : Line} {a : Nat} (h : Valid s) (hl : Aligned l)
    (ha : a ≤ l.content.length) :
    Valid { setLine s s.cursor_vpos l with cursor_hpos := a } := by
  obtain ⟨h1, h2, h3, h4, h5, h6⟩ := h
  refine ⟨?_, ?_, ?_, ?_, h5, h6⟩
  · show s.lines.set s.cursor_vpos l ≠ []
    intro hemp
    have := congrArg List.length hemp
    rw [List.length_set] at this
    exact h1 (List.length_eq_zero.mp this)
  · show s.cursor_vpos < (s.lines.set s.cursor_vpos l).length
    rw [List.length_set]
    exact h2
  · show a ≤ ((s.lines.set s.cursor_vpos l).getD s.cursor_vpos Line.new).content.length
    rw [getD_set_self _ _ _ _ h2]
    exact ha
  · exact aligned_all_set h4 hl

/-- `ensure_styles_match` on the cursor line preserves the invariant. -/
lemma valid_setLine_esm {t : State} (h : Valid t) :
    Valid (setLine t t.cursor_vpos (getLine t t.cursor_vpos).ensure_styles_match) := by
  obtain ⟨h1, h2, h3, h4, h5, h6⟩ := h
  exact valid_setLine_hpos ⟨h1, h2, h3, h4, h5, h6⟩ (Line.ensure_styles_match_aligned _)
    (by rw [Line.ensure_styles_match_content]; exact h3)

/-- The trailing «if vpos in range, `ensure_styles_match` the cursor line»
step of `handle_backspace`. -/
lemma valid_esm_step {t : State} (h : Valid t) :
    Valid (if t.cursor_vpos < t.lines.length then
      setLine t t.cursor_vpos (getLine t t.cursor_vpos).ensure_styles_match
    else t) := by
  rw [if_pos h.2.1]
  exact valid_setLine_esm h

/-- The drain-or-noop tail of `handle_ctrl_backspace`, for an arbitrary
computed word-boundary `sp`. -/
lemma valid_ctrl_backspace_drain {s : State} (hv : Valid s) (sp : Nat) :
    Valid (update_cached_counts (if sp < s.cursor_hpos then
      { setLine s s.cursor_vpos ((getLine s s.cursor_vpos).drain_chars sp s.cursor_hpos).2 with
        cursor_hpos := sp }
    else s)) := by
  obtain ⟨h1, h2, h3, h4, h5, h6⟩ := hv
  split_ifs with hb
  · exact valid_update_cached_counts (valid_setLine_hpos ⟨h1, h2, h3, h4, h5, h6⟩
      (Line.drain_chars_aligned (h4 _ (getLine_mem h2)) (le_of_lt hb))
      (hpos_after_drain (le_of_lt hb) h3))
  · exact valid_update_cached_counts ⟨h1, h2, h3, h4, h5, h6⟩

lemma valid_handle_ctrl_backspace {s : State} (h : Valid s) : Valid (handle_ctrl_backspace s) := by
  have hv := h
  obtain ⟨h1, h2, h3, h4, h5, h6⟩ := h
  unfold handle_ctrl_backspace
  dsimp only
  by_cases ha : s.cursor_hpos = 0 ∨ s.lines.length ≤ s.cursor_vpos
  · rw [if_pos ha]
    exact hv
  · rw [if_neg ha]
    exact valid_ctrl_backspace_drain hv _

lemma valid_handle_ctrl_delete {s : State} (h : Valid s) : Valid (handle_ctrl_delete s) := by
  have hv := h
  obtain ⟨h1, h2, h3, h4, h5, h6⟩ := h
  unfold handle_ctrl_delete
  dsimp only
  split_ifs with ha hb
  · exact hv
  · have hws := skip_ws_fwd_le (getLine s s.cursor_vpos).content
      (getLine s s.cursor_vpos).content.length s.cursor_hpos h3
    have he2 := skip_word_fwd_le (getLine s s.cursor_vpos).content
      (getLine s s.cursor_vpos).content.length
      (skip_ws_fwd (getLine s s.cursor_vpos).content
        (getLine s s.cursor_vpos).content.length s.cursor_hpos) hws
    exact valid_setLine_hpos hv
      (Line.drain_chars_aligned (h4 _ (getLine_mem h2)) (le_of_lt hb))
      (by rw [Line.drain_chars_content_length (le_of_lt hb) he2]; omega)
  · exact hv

lemma valid_join_with_previous_line {s : State} (h : Valid s) :
    Valid (join_with_previous_line s) := by
  have hv := h
  obtain ⟨h1, h2, h3, h4, h5, h6⟩ := h
  unfold join_with_previous_line
  dsimp only
  split_ifs with ha
  · exact hv
  · push_neg at ha
    obtain ⟨ha1, ha2⟩ := ha
    have hvp : 0 < s.cursor_vpos := Nat.pos_of_ne_zero ha1
    have hlen1 : (s.lines.eraseIdx s.cursor_vpos).length = s.lines.length - 1 := by
      rw [List.length_eraseIdx, if_pos h2]
    have hprev : s.cursor_vpos - 1 < (s.lines.eraseIdx s.cursor_vpos).length := by omega
    refine ⟨?_, ?_, ?_, ?_, h5, h6⟩
    · show (s.lines.eraseIdx s.cursor_vpos).set (s.cursor_vpos - 1) _ ≠ []
      intro hemp
      have := congrArg List.length hemp
      rw [List.length_set, hlen1] at this
      simp only [List.length_nil] at this
      omega
    · show s.cursor_vpos - 1 <
        ((s.lines.eraseIdx s.cursor_vpos).set (s.cursor_vpos - 1) _).length
      rw [List.length_set, hlen1]
      omega
    · show ((s.lines.eraseIdx s.cursor_vpos).getD (s.cursor_vpos - 1) Line.new).content.length ≤
        (getLine { s with
          lines := (s.lines.eraseIdx s.cursor_vpos).set (s.cursor_vpos - 1)
            (((s.lines.eraseIdx s.cursor_vpos).getD (s.cursor_vpos - 1) Line.new).append
              (getLine s s.cursor_vpos))
          cursor_vpos := s.cursor_vpos - 1
          cursor_hpos :=
            ((s.lines.eraseIdx s.cursor_vpos).getD (s.cursor_vpos - 1) Line.new).content.length }
          (s.cursor_vpos - 1)).content.length
      unfold getLine
      dsimp only
      rw [getD_set_self _ _ _ _ hprev, Line.append_content, List.length_append]
      exact Nat.le_add_right _ _
    · intro x hx
      rcases List.mem_or_eq_of_mem_set hx with hx1 | hx2
      · exact h4 x (List.mem_of_mem_eraseIdx hx1)
      · rw [hx2]
        exact Line.append_aligned
          (h4 _ (List.mem_of_mem_eraseIdx (getD_mem _ _ _ hprev)))
          (h4 _ (getLine_mem h2))

lemma valid_join_with_next_line {s : State} (h : Valid s) : Valid (join_with_next_line s) := by
  have hv := h
  obtain ⟨h1, h2, h3, h4, h5, h6⟩ := h
  unfold join_with_next_line
  dsimp only
  split_ifs with ha
  · exact hv
  · push_neg at ha
    have hlen1 : (s.lines.eraseIdx (s.cursor_vpos + 1)).length = s.lines.length - 1 := by
      rw [List.length_eraseIdx, if_pos (by omega)]
    have hcur : s.cursor_vpos < (s.lines.eraseIdx (s.cursor_vpos + 1)).length := by omega
    have hgetd : (s.lines.eraseIdx (s.cursor_vpos + 1)).getD s.cursor_vpos Line.new =
        s.lines.getD s.cursor_vpos Line.new :=
      getD_eraseIdx_of_lt _ _ _ _ (by omega) hcur
    refine ⟨?_, ?_, ?_, ?_, h5, h6⟩
    · show (s.lines.eraseIdx (s.cursor_vpos + 1)).set s.cursor_vpos _ ≠ []
      intro hemp
      have := congrArg List.length hemp
      rw [List.length_set, hlen1] at this
      simp only [List.length_nil] at this
      omega
    · show s.cursor_vpos <
        ((s.lines.eraseIdx (s.cursor_vpos + 1)).set s.cursor_vpos _).length
      rw [List.length_set, hlen1]
      omega
    · have key : ∀ m : Line, (getLine s s.cursor_vpos).content.length ≤ m.content.length →
          s.cursor_hpos ≤
            (((s.lines.eraseIdx (s.cursor_vpos + 1)).set s.cursor_vpos m).getD s.cursor_vpos
              Line.new).content.length := by
        intro m hm
        rw [getD_set_self _ _ _ _ hcur]
        omega
      refine key _ ?_
      rw [Line.ensure_styles_match_content, Line.append_content, List.length_append, hgetd]
      unfold getLine
      exact Nat.le_add_right _ _
    · intro x hx
      rcases List.mem_or_eq_of_mem_set hx with hx1 | hx2
      · exact h4 x (List.mem_of_mem_eraseIdx hx1)
      · rw [hx2]
        exact Line.ensure_styles_match_aligned _

lemma valid_backspace_body {s : State} (h : Valid s) (ctrl : Bool) :
    Valid (backspace_body s ctrl) := by
  have hv := h
  obtain ⟨h1, h2, h3, h4, h5, h6⟩ := h
  unfold backspace_body
  rw [ensure_line_exists_eq h1 h2]
  dsimp only
  apply valid_esm_step
  split_ifs with ha hb
  · exact valid_handle_ctrl_backspace hv
  · exact valid_setLine_hpos hv
      (Line.remove_char_aligned (h4 _ (getLine_mem h2)) _)
      (by rw [Line.remove_char_content_length (by omega)]; omega)
  · exact valid_join_with_previous_line hv
  · exact hv

lemma valid_delete_body {s : State} (h : Valid s) (ctrl : Bool) : Valid (delete_body s ctrl) := by
  have hv := h
  obtain ⟨h1, h2, h3, h4, h5, h6⟩ := h
  unfold delete_body
  rw [ensure_line_exists_eq h1 h2]
  dsimp only
  split_ifs with ha hb hc
  · exact valid_handle_ctrl_delete hv
  · exact valid_setLine_hpos hv
      (Line.remove_char_aligned (h4 _ (getLine_mem h2)) _)
      (by rw [Line.remove_char_content_length hb]; omega)
  · exact valid_join_with_next_line hv
  · exact hv

lemma valid_text_input_body {s : State} (h : Valid s) (t : List Char) :
    Valid (text_input_body s t) := by
  have hv := h
  obtain ⟨h1, h2, h3, h4, h5, h6⟩ := h
  unfold text_input_body
  rw [ensure_line_exists_eq h1 h2]
  dsimp only
  have hal := h4 _ (getLine_mem h2)
  have hs3 : Valid { setLine s s.cursor_vpos
      ((getLine s s.cursor_vpos).insert_text s.cursor_hpos t s.default_font
        s.default_font_size) with
      cursor_hpos := s.cursor_hpos + t.length } :=
    valid_setLine_hpos hv (Line.insert_text_aligned hal h3)
      (by rw [Line.insert_text_content_length hal h3]; omega)
  exact valid_setLine_esm hs3

/-- Inserting a fresh aligned line right after the cursor line and moving the
cursor to its start preserves the invariant (the `handle_enter` tail). -/
lemma valid_insert_line {s : State} (h : Valid s) {l : Line} (hl : Aligned l) :
    Valid { { s with lines := listInsertAt s.lines (s.cursor_vpos + 1) l } with
      cursor_vpos := s.cursor_vpos + 1, cursor_hpos := 0 } := by
  obtain ⟨h1, h2, h3, h4, h5, h6⟩ := h
  have hlen : (listInsertAt s.lines (s.cursor_vpos + 1) l).length = s.lines.length + 1 :=
    length_listInsertAt _ _ _ (by omega)
  refine ⟨?_, ?_, Nat.zero_le _, ?_, h5, h6⟩
  · exact listInsertAt_ne_nil _ _ _
  · show s.cursor_vpos + 1 < (listInsertAt s.lines (s.cursor_vpos + 1) l).length
    omega
  · intro x hx
    rcases mem_listInsertAt hx with hx1 | hx2
    · exact h4 x hx1
    · rw [hx2]
      exact hl

lemma valid_enter_body {s : State} (h : Valid s) : Valid (enter_body s) := by
  have hv := h
  obtain ⟨h1, h2, h3, h4, h5, h6⟩ := h
  unfold enter_body
  rw [ensure_line_exists_eq h1 h2]
  dsimp only
  split_ifs with hc
  · have hal := h4 _ (getLine_mem h2)
    have hdr : Valid (setLine s s.cursor_vpos
        (((getLine s s.cursor_vpos).drain_chars s.cursor_hpos
          (getLine s s.cursor_vpos).content.length).2.ensure_styles_match)) := by
      refine valid_setLine_hpos hv (Line.ensure_styles_match_aligned _) ?_
      rw [Line.ensure_styles_match_content,
        Line.drain_chars_content_length (by omega) (le_refl _)]
      omega
    exact valid_insert_line hdr
      (foldl_insert_char_aligned _ _ _ Line.new Line.new_aligned)
  · exact valid_insert_line hv Line.new_aligned

lemma valid_applyOp {s : State} (h : Valid s) (op : Op) : Valid (applyOp s op) := by
  cases op with
  | textInput t =>
    exact valid_update_cached_counts (valid_ensure_cursor_visible (valid_text_input_body h t))
  | enter => exact valid_ensure_cursor_visible (valid_enter_body h)
  | backspace b =>
    exact valid_update_cached_counts (valid_ensure_cursor_visible (valid_backspace_body h b))
  | delete b => exact valid_update_cached_counts (valid_delete_body h b)
  | arrowLeft => exact valid_ensure_cursor_visible (valid_arrow_left_body h)
  | arrowRight => exact valid_ensure_cursor_visible (valid_arrow_right_body h)
  | arrowUp =>
    show Valid (handle_arrow_up s)
    unfold handle_arrow_up
    split_ifs with hg
    · exact h
    · exact valid_ensure_cursor_visible (valid_arrow_up_body h)
  | arrowDown =>
    show Valid (handle_arrow_down s)
    unfold handle_arrow_down
    split_ifs with hg
    · exact h
    · exact valid_ensure_cursor_visible (valid_arrow_down_body h)
  | mouseClick px py => exact valid_handle_mouse_click h px py
  | wheel dy => exact valid_handle_wheel h dy
  | resize w hh => exact valid_set_viewport_size h w hh

lemma valid_initial_state : Valid initial_state := by decide

lemma valid_applyOps (ops : List Op) : ∀ {s : State}, Valid s → Valid (applyOps ops s) := by
  induction ops with
  | nil => intro s h; exact h
  | cons op rest ih => intro s h; exact ih (valid_applyOp h op)

/-! ## Whitespace-free wrap counting (for C9) -/

lemma scan_back_ws_none_of_no_ws {line : Line}
    (hws : ∀ c ∈ line.content, ¬c.isWhitespace = true) (start : Nat) :
    ∀ e, e ≤ line.content.length → scan_back_ws line.content start e = none := by
  intro e
  induction e with
  | zero => intro _; rfl
  | succ e ih =>
    intro he
    unfold scan_back_ws
    split_ifs with h1 h2
    · have he2 : e < line.content.length := by omega
      rw [List.getD_eq_getElem _ _ he2] at h2
      exact absurd h2 (hws _ (List.getElem_mem he2))
    · exact ih (by omega)
    · rfl

lemma find_wrap_position_no_ws {line : Line}
    (hws : ∀ c ∈ line.content, ¬c.isWhitespace = true) (start max_chars : Nat) :
    find_wrap_position line start max_chars = min (start + max_chars) line.content.length := by
  unfold find_wrap_position
  dsimp only
  split_ifs with h
  · rfl
  · rw [scan_back_ws_none_of_no_ws hws start _ (by omega)]

lemma div_ceil_succ {m mc : Nat} (hm : 1 ≤ m) (hmc : 1 ≤ mc) :
    div_ceil m mc = 1 + div_ceil (m - mc) mc := by
  unfold div_ceil
  rcases le_or_lt m mc with h | h
  · rw [show m - mc = 0 from by omega]
    have e1 : (m + mc - 1) / mc = 1 := by
      rw [show m + mc - 1 = (m - 1) + mc from by omega, Nat.add_div_right _ (by omega),
        Nat.div_eq_of_lt (by omega)]
    have e2 : (0 + mc - 1) / mc = 0 := Nat.div_eq_of_lt (by omega)
    omega
  · have e1 : m + mc - 1 = (m - 1) + mc := by omega
    have e2 : m - mc + mc - 1 = m - 1 := by omega
    rw [e1, e2, Nat.add_div_right _ (by omega)]
    omega

lemma cvl_aux_no_ws {line : Line} {max_chars : Nat} (hmc : 1 ≤ max_chars)
    (hws : ∀ c ∈ line.content, ¬c.isWhitespace = true) :
    ∀ (n fuel pos : Nat), line.content.length - pos ≤ n → line.content.length - pos ≤ fuel →
      cvl_aux line max_chars fuel pos = div_ceil (line.content.length - pos) max_chars := by
  intro n
  induction n with
  | zero =>
    intro fuel pos h hf
    rw [cvl_aux_zero_of_le _ _ _ _ (by omega)]
    unfold div_ceil
    rw [show line.content.length - pos = 0 from by omega]
    exact (Nat.div_eq_of_lt (by omega)).symm
  | succ n ih =>
    intro fuel pos h hf
    by_cases hp : pos < line.content.length
    · obtain ⟨g, rfl⟩ : ∃ g, fuel = g + 1 := ⟨fuel - 1, by omega⟩
      rw [cvl_aux_succ hp, find_wrap_position_no_ws hws,
        ih g (min (pos + max_chars) line.content.length) (by omega) (by omega)]
      rw [show line.content.length - min (pos + max_chars) line.content.length =
        line.content.length - pos - max_chars from by omega]
      exact (div_ceil_succ (by omega) hmc).symm
    · rw [cvl_aux_zero_of_le _ _ _ _ (by omega)]
      unfold div_ceil
      rw [show line.content.length - pos = 0 from by omega]
      exact (Nat.div_eq_of_lt (by omega)).symm

/-! ## Claim theorems -/

/-- C1: After any sequence of operations (text input, Enter, Backspace,
Ctrl+Backspace, Delete, Ctrl+Delete, arrow keys, mouse click — and also the
wheel-scroll and viewport-resize events), the cursor satisfies
`cursor_vpos < number of lines` and `cursor_hpos ≤ length of the content of
line[cursor_vpos]`: no operation leaves the cursor out of range. -/
theorem C1_cursor_always_in_range (ops : List Op) :
    (applyOps ops initial_state).cursor_vpos < (applyOps ops initial_state).lines.length ∧
    (applyOps ops initial_state).cursor_hpos ≤
      (getLine (applyOps ops initial_state)
        (applyOps ops initial_state).cursor_vpos).content.length := by
  obtain ⟨-, h2, h3, -, -, -⟩ := valid_applyOps ops valid_initial_state
  exact ⟨h2, h3⟩

/-- C2: For every Line reachable by any sequence of editing operations, once
the operation completes, the `fonts` array and the `font_sizes` array each
have exactly the length of the `content` array. -/
theorem C2_styles_match_content (ops : List Op) :
    ∀ l ∈ (applyOps ops initial_state).lines,
      l.fonts.length = l.content.length ∧ l.font_sizes.length = l.content.length := by
  obtain ⟨-, -, -, h4, -, -⟩ := valid_applyOps ops valid_initial_state
  exact fun l hl => h4 l hl

theorem C2_styles_match_content_witness :
    Line.new ∈ (applyOps [] initial_state).lines ∧
    (Line.new.fonts.length = Line.new.content.length ∧
      Line.new.font_sizes.length = Line.new.content.length) :=
  ⟨by decide, C2_styles_match_content [] Line.new (by decide)⟩

/-- C3: After any sequence of operations the document buffer holds at least
one Line: no operation reduces the line vector to length zero. -/
theorem C3_buffer_never_empty (ops : List Op) :
    (applyOps ops initial_state).lines ≠ [] :=
  (valid_applyOps ops valid_initial_state).1

/-- C5: With `start < len(content)` and `max_chars ≥ 1` (as maintained by the
engine), `find_wrap_position` returns a value strictly greater than `start`,
and consequently the wrap loop of `calculate_visual_lines` makes forward
progress and terminates: its chunk count is independent of any sufficiently
large fuel bound. -/
theorem C5_wrap_progress (line : Line) (start max_chars : Nat)
    (h1 : start < line.content.length) (h2 : 1 ≤ max_chars) :
    start < find_wrap_position line start max_chars ∧
    ∀ fuel, line.content.length ≤ fuel →
      cvl_aux line max_chars fuel 0 = cvl_aux line max_chars line.content.length 0 := by
  refine ⟨find_wrap_position_gt h1 h2, ?_⟩
  intro fuel hf
  exact cvl_aux_fuel_eq h2 line.content.length fuel line.content.length 0 (by omega) (by omega)
    (by omega)

theorem C5_wrap_progress_witness :
    (0 < (mkLine "ab").content.length ∧ 1 ≤ 1) ∧
    (0 < find_wrap_position (mkLine "ab") 0 1 ∧
      ∀ fuel, (mkLine "ab").content.length ≤ fuel →
        cvl_aux (mkLine "ab") 1 fuel 0 = cvl_aux (mkLine "ab") 1 (mkLine "ab").content.length 0) :=
  ⟨⟨by decide, by decide⟩, C5_wrap_progress (mkLine "ab") 0 1 (by decide) (by decide)⟩

/-- C6 counterexample: with a single line `"foo   bar"` and the cursor at
hpos = 9, Ctrl+Backspace does NOT leave the cursor at hpos = 4. -/
theorem C6_counterexample :
    (applyOps [Op.textInput "foo   bar".toList, Op.backspace true] initial_state).cursor_hpos ≠
      4 := by
  decide

/-- C6 amended: with a single line `"foo   bar"` and the cursor at hpos = 9,
Ctrl+Backspace deletes back to hpos = 6 — it removes exactly `"bar"`,
stopping at the start of the word (just after the whitespace run), leaving
`"foo   "`. -/
theorem C6_amended :
    (applyOps [Op.textInput "foo   bar".toList, Op.backspace true] initial_state).cursor_hpos =
      6 ∧
    (getLine (applyOps [Op.textInput "foo   bar".toList, Op.backspace true] initial_state)
      0).content = "foo   ".toList := by
  decide

/-- C9 counterexample: the per-line visual-line count the mouse-click mapping
accumulates (`div_ceil(len, max_chars)`) does not equal
`calculate_visual_lines` — an empty line counts as 0 there, not 1. -/
theorem C9_counterexample :
    mouse_num_visual Line.new 120 ≠ calculate_visual_lines 120 Line.new := by
  decide

/-- C9 amended: the mouse-click mapping accumulates
`ceil(len / max_chars)` visual lines per logical line; an empty line counts
as 0 (not 1), and for nonempty lines containing no whitespace this count
agrees with `calculate_visual_lines` (whitespace can make the greedy wrap
produce more chunks, and then the two disagree). -/
theorem C9_mouse_count_amended (line : Line) (max_chars : Nat) (hmc : 1 ≤ max_chars)
    (hne : line.content ≠ []) (hws : ∀ c ∈ line.content, ¬c.isWhitespace = true) :
    mouse_num_visual line max_chars = calculate_visual_lines max_chars line ∧
    mouse_num_visual Line.new max_chars = 0 := by
  constructor
  · unfold mouse_num_visual calculate_visual_lines
    rw [if_neg (by simpa [List.length_eq_zero] using hne)]
    rw [cvl_aux_no_ws hmc hws line.content.length line.content.length 0 (by omega) (by omega)]
    simp
  · unfold mouse_num_visual div_ceil
    simp only [Line.new, List.length_nil]
    exact Nat.div_eq_of_lt (by omega)

theorem C9_mouse_count_amended_witness :
    (1 ≤ 2 ∧ (mkLine "aaaaa").content ≠ [] ∧
      (∀ c ∈ (mkLine "aaaaa").content, ¬c.isWhitespace = true)) ∧
    (mouse_num_visual (mkLine "aaaaa") 2 = calculate_visual_lines 2 (mkLine "aaaaa") ∧
      mouse_num_visual Line.new 2 = 0) :=
  ⟨⟨by decide, by decide, by decide⟩,
    C9_mouse_count_amended (mkLine "aaaaa") 2 (by decide) (by decide) (by decide)⟩

/-- C10 counterexample: Enter is a content-changing edit after which
`char_count()` does not match the per-line first-character rule — the cached
counts are not refreshed by `handle_enter`. -/
theorem C10_counterexample :
    char_count (applyOps [Op.textInput " a".toList, Op.arrowLeft, Op.enter] initial_state) ≠
      char_count_rule
        (applyOps [Op.textInput " a".toList, Op.arrowLeft, Op.enter] initial_state).lines := by
  decide

/-- C10 amended: after any content-changing edit other than Enter (text
input, Backspace, Ctrl+Backspace, Delete, Ctrl+Delete — Enter does not
refresh the cache), `char_count()` equals the sum of the lengths of only
those lines whose first character is neither a space nor a newline; a line
whose first character is a space contributes zero, so `char_count()` is not
in general the total number of characters (e.g. the single line `" a"`
counts 0 of its 2 characters). -/
theorem C10_char_count_amended (s : State) :
    (∀ t, char_count (applyOp s (Op.textInput t)) =
      char_count_rule (applyOp s (Op.textInput t)).lines) ∧
    (∀ b, char_count (applyOp s (Op.backspace b)) =
      char_count_rule (applyOp s (Op.backspace b)).lines) ∧
    (∀ b, char_count (applyOp s (Op.delete b)) =
      char_count_rule (applyOp s (Op.delete b)).lines) ∧
    (char_count_rule [mkLine " a"] = 0 ∧ (mkLine " a").content.length = 2) :=
  ⟨fun _ => rfl, fun _ => rfl, fun _ => rfl, by decide, by decide⟩

/-- C8: inserting the characters of `T` at an in-range position of an
aligned line (with any style) and then immediately draining the range
`[pos, pos + len T)` returns exactly the characters of `T` in order and
restores the line's prior content and style arrays. -/
theorem C8_insert_drain_roundtrip (l : Line) (pos : Nat) (text : List Char) (f : Font) (sz : ℚ)
    (hA : Aligned l) (hpos : pos ≤ l.content.length) :
    (l.insert_text pos text f sz).drain_chars pos (pos + text.length) = (text, l) := by
  obtain ⟨hf, hz⟩ := hA
  obtain ⟨e1, e2, e3⟩ := Line.insert_text_spec text l pos f sz ⟨hf, hz⟩ hpos
  have hA1 : (l.content.take pos).length = pos := by
    rw [List.length_take]; omega
  have hAf : (l.fonts.take pos).length = pos := by
    rw [List.length_take]; omega
  have hAz : (l.font_sizes.take pos).length = pos := by
    rw [List.length_take]; omega
  have key : ∀ (α : Type) (A B R : List α), A.length = pos → R.length = text.length →
      (A ++ R ++ B).take pos = A ∧ (A ++ R ++ B).drop (pos + text.length) = B ∧
        ((A ++ R ++ B).drop pos).take text.length = R := by
    intro α A B R hA2 hR
    refine ⟨?_, ?_, ?_⟩
    · rw [List.append_assoc, List.take_left' hA2]
    · rw [List.drop_left' (by rw [List.length_append, hA2, hR])]
    · rw [List.append_assoc, List.drop_left' hA2, List.take_left' hR]
  obtain ⟨c1, c2, c3⟩ := key Char (l.content.take pos) (l.content.drop pos) text hA1 rfl
  obtain ⟨f1, f2, -⟩ := key Font (l.fonts.take pos) (l.fonts.drop pos)
    (List.replicate text.length f) hAf (List.length_replicate _ _)
  obtain ⟨z1, z2, -⟩ := key ℚ (l.font_sizes.take pos) (l.font_sizes.drop pos)
    (List.replicate text.length sz) hAz (List.length_replicate _ _)
  unfold Line.drain_chars
  dsimp only
  rw [e1, e2, e3]
  have hsub : pos + text.length - pos = text.length := by omega
  rw [hsub]
  rcases Nat.eq_zero_or_pos text.length with hn | hn
  · have ht : text = [] := List.length_eq_zero.mp hn
    subst ht
    rw [if_neg (by omega : ¬(pos < pos + ([] : List Char).length ∧
        pos < (l.fonts.take pos ++ List.replicate ([] : List Char).length f ++
          l.fonts.drop pos).length)),
      if_neg (by omega : ¬(pos < pos + ([] : List Char).length ∧
        pos < (l.font_sizes.take pos ++ List.replicate ([] : List Char).length sz ++
          l.font_sizes.drop pos).length))]
    rw [c3, c1, c2, List.take_append_drop]
    simp only [List.length_nil, List.replicate_zero, List.append_nil]
    rw [List.take_append_drop, List.take_append_drop]
  · have hflen : (l.fonts.take pos ++ List.replicate text.length f ++ l.fonts.drop pos).length =
        l.fonts.length + text.length := by
      simp only [List.length_append, List.length_take, List.length_replicate, List.length_drop]
      omega
    have hzlen : (l.font_sizes.take pos ++ List.replicate text.length sz ++
        l.font_sizes.drop pos).length = l.font_sizes.length + text.length := by
      simp only [List.length_append, List.length_take, List.length_replicate, List.length_drop]
      omega
    rw [if_pos ⟨by omega, by rw [hflen]; omega⟩, if_pos ⟨by omega, by rw [hzlen]; omega⟩]
    rw [min_eq_left (by rw [hflen]; omega), min_eq_left (by rw [hzlen]; omega)]
    rw [c1, c2, c3, f1, f2, z1, z2,
      List.take_append_drop, List.take_append_drop, List.take_append_drop]

theorem C8_insert_drain_roundtrip_witness :
    (Aligned (mkLine "abc") ∧ 1 ≤ (mkLine "abc").content.length) ∧
    ((mkLine "abc").insert_text 1 "xy".toList ⟨"F"⟩ 9).drain_chars 1 (1 + "xy".toList.length) =
      ("xy".toList, mkLine "abc") :=
  ⟨⟨by decide, by decide⟩,
    C8_insert_drain_roundtrip (mkLine "abc") 1 "xy".toList ⟨"F"⟩ 9 (by decide) (by decide)⟩

/-! ## C7: which handlers reconcile the viewport -/

lemma scroll_handle_delete (s : State) (b : Bool) :
    (handle_delete s b).scroll_offset_y = s.scroll_offset_y := by
  unfold handle_delete update_cached_counts delete_body handle_ctrl_delete join_with_next_line
    ensure_line_exists setLine
  dsimp only
  split_ifs <;> rfl

lemma text_input_body_fields (s : State) (t : List Char) :
    (text_input_body s t).line_height = s.line_height ∧
    (text_input_body s t).viewport_height = s.viewport_height :=
  ⟨rfl, rfl⟩

lemma enter_body_fields (s : State) :
    (enter_body s).line_height = s.line_height ∧
    (enter_body s).viewport_height = s.viewport_height := by
  constructor <;>
    · unfold enter_body ensure_line_exists setLine
      dsimp only
      split_ifs <;> rfl

lemma esm_step_fields (t : State) :
    (if t.cursor_vpos < t.lines.length then
      setLine t t.cursor_vpos (getLine t t.cursor_vpos).ensure_styles_match
    else t).line_height = t.line_height ∧
    (if t.cursor_vpos < t.lines.length then
      setLine t t.cursor_vpos (getLine t t.cursor_vpos).ensure_styles_match
    else t).viewport_height = t.viewport_height := by
  split_ifs <;> exact ⟨rfl, rfl⟩

lemma ctrl_backspace_fields (s : State) :
    (handle_ctrl_backspace s).line_height = s.line_height ∧
    (handle_ctrl_backspace s).viewport_height = s.viewport_height := by
  unfold handle_ctrl_backspace update_cached_counts setLine
  dsimp only
  split_ifs <;> exact ⟨rfl, rfl⟩

lemma join_prev_fields (s : State) :
    (join_with_previous_line s).line_height = s.line_height ∧
    (join_with_previous_line s).viewport_height = s.viewport_height := by
  unfold join_with_previous_line
  dsimp only
  split_ifs <;> exact ⟨rfl, rfl⟩

lemma backspace_body_fields (s : State) (b : Bool) :
    (backspace_body s b).line_height = s.line_height ∧
    (backspace_body s b).viewport_height = s.viewport_height := by
  unfold backspace_body
  dsimp only
  constructor
  · rw [(esm_step_fields _).1]
    split_ifs with h1 h2 h3
    · rw [(ctrl_backspace_fields _).1]
      rfl
    · rfl
    · rw [(join_prev_fields _).1]
      rfl
    · rfl
  · rw [(esm_step_fields _).2]
    split_ifs with h1 h2 h3
    · rw [(ctrl_backspace_fields _).2]
      rfl
    · rfl
    · rw [(join_prev_fields _).2]
      rfl
    · rfl

lemma arrow_left_body_fields (s : State) :
    (arrow_left_body s).line_height = s.line_height ∧
    (arrow_left_body s).viewport_height = s.viewport_height := by
  constructor <;>
    · unfold arrow_left_body ensure_line_exists
      dsimp only
      split_ifs <;> rfl

lemma arrow_right_body_fields (s : State) :
    (arrow_right_body s).line_height = s.line_height ∧
    (arrow_right_body s).viewport_height = s.viewport_height := by
  constructor <;>
    · unfold arrow_right_body ensure_line_exists
      dsimp only
      split_ifs <;> rfl

lemma arrow_up_body_fields (s : State) :
    (arrow_up_body s).line_height = s.line_height ∧
    (arrow_up_body s).viewport_height = s.viewport_height := by
  constructor <;>
    · unfold arrow_up_body
      dsimp only
      split_ifs <;> rfl

lemma arrow_down_body_fields (s : State) :
    (arrow_down_body s).line_height = s.line_height ∧
    (arrow_down_body s).viewport_height = s.viewport_height := by
  constructor <;>
    · unfold arrow_down_body
      dsimp only
      split_ifs <;> rfl

lemma inBand_ecv_of {s t : State} (ht : Valid t) (hl : t.line_height = s.line_height)
    (hv : t.viewport_height = s.viewport_height) (hlh : 0 ≤ s.line_height)
    (hband : s.line_height ≤ s.viewport_height) : InBand (ensure_cursor_visible t) := by
  apply ensure_cursor_visible_inBand ht
  · rw [hl]
    exact hlh
  · rw [hl, hv]
    exact hband

/-- C7 counterexample: Delete does not invoke viewport reconciliation.  After
resizing to a 60-pixel viewport, typing `a`, wheel-scrolling down 100 pixels
and pressing Delete, the cursor's visual row (row 0) lies outside the band
`[100, 160]` — the operation left the cursor scrolled out of view. -/
theorem C7_counterexample :
    ¬ InBand (applyOps [Op.resize 500 60, Op.textInput ['a'], Op.wheel (-100),
      Op.delete false] initial_state) := by
  with_unfolding_all decide

/-- C7 amended: text input, Enter, Backspace/Ctrl+Backspace, ArrowLeft and
ArrowRight always end by invoking viewport reconciliation, and ArrowUp /
ArrowDown do so except on their early-return no-op paths (cursor at document
start for ArrowUp; last line with the cursor at or past the end of its
content for ArrowDown), where they return with the state — and hence the
scroll offset — completely unchanged.  After any reconciling completion the
cursor's visual row within its logical line (the row the reconciliation
uses) lies inside the band `[scroll_offset_y, scroll_offset_y +
viewport_height]` whenever one line fits the viewport; Delete and
Ctrl+Delete never reconcile — they leave `scroll_offset_y` untouched. -/
theorem C7_reconciliation_amended (s : State) (hv : Valid s) (hlh : 0 ≤ s.line_height)
    (hband : s.line_height ≤ s.viewport_height) :
    (∀ t, InBand (update_cached_counts (handle_text_input s t))) ∧
    InBand (handle_enter s) ∧
    (∀ b, InBand (handle_backspace s b)) ∧
    InBand (handle_arrow_left s) ∧
    InBand (handle_arrow_right s) ∧
    (¬(s.cursor_vpos = 0 ∧ s.cursor_hpos = 0) → InBand (handle_arrow_up s)) ∧
    (s.cursor_vpos = 0 ∧ s.cursor_hpos = 0 → handle_arrow_up s = s) ∧
    (¬(s.lines.length - 1 ≤ s.cursor_vpos ∧
        (getLine s s.cursor_vpos).content.length ≤ s.cursor_hpos) →
      InBand (handle_arrow_down s)) ∧
    (s.lines.length - 1 ≤ s.cursor_vpos ∧
        (getLine s s.cursor_vpos).content.length ≤ s.cursor_hpos →
      handle_arrow_down s = s) ∧
    (∀ b, (handle_delete s b).scroll_offset_y = s.scroll_offset_y) := by
  refine ⟨?_, ?_, ?_, ?_, ?_, ?_, ?_, ?_, ?_, ?_⟩
  · intro t
    rw [inBand_update_cached_counts]
    exact inBand_ecv_of (valid_text_input_body hv t) (text_input_body_fields s t).1
      (text_input_body_fields s t).2 hlh hband
  · exact inBand_ecv_of (valid_enter_body hv) (enter_body_fields s).1
      (enter_body_fields s).2 hlh hband
  · intro b
    show InBand (update_cached_counts (ensure_cursor_visible (backspace_body s b)))
    rw [inBand_update_cached_counts]
    exact inBand_ecv_of (valid_backspace_body hv b) (backspace_body_fields s b).1
      (backspace_body_fields s b).2 hlh hband
  · exact inBand_ecv_of (valid_arrow_left_body hv) (arrow_left_body_fields s).1
      (arrow_left_body_fields s).2 hlh hband
  · exact inBand_ecv_of (valid_arrow_right_body hv) (arrow_right_body_fields s).1
      (arrow_right_body_fields s).2 hlh hband
  · intro hg
    unfold handle_arrow_up
    rw [if_neg hg]
    exact inBand_ecv_of (valid_arrow_up_body hv) (arrow_up_body_fields s).1
      (arrow_up_body_fields s).2 hlh hband
  · intro hg
    unfold handle_arrow_up
    rw [if_pos hg]
  · intro hg
    unfold handle_arrow_down
    rw [if_neg hg]
    exact inBand_ecv_of (valid_arrow_down_body hv) (arrow_down_body_fields s).1
      (arrow_down_body_fields s).2 hlh hband
  · intro hg
    unfold handle_arrow_down
    rw [if_pos hg]
  · intro b
    exact scroll_handle_delete s b

theorem C7_reconciliation_amended_witness :
    (Valid (set_viewport_size initial_state 500 60) ∧
      0 ≤ (set_viewport_size initial_state 500 60).line_height ∧
      (set_viewport_size initial_state 500 60).line_height ≤
        (set_viewport_size initial_state 500 60).viewport_height) ∧
    InBand (handle_arrow_left (set_viewport_size initial_state 500 60)) ∧
    (handle_delete (set_viewport_size initial_state 500 60) false).scroll_offset_y =
      (set_viewport_size initial_state 500 60).scroll_offset_y :=
  ⟨⟨by with_unfolding_all decide, by with_unfolding_all decide, by with_unfolding_all decide⟩,
    (C7_reconciliation_amended _ (by with_unfolding_all decide) (by with_unfolding_all decide)
      (by with_unfolding_all decide)).2.2.2.1,
    (C7_reconciliation_amended _ (by with_unfolding_all decide) (by with_unfolding_all decide)
      (by with_unfolding_all decide)).2.2.2.2.2.2.2.2.2 false⟩

end Blackscript
